import Mathlib

/-!
# A verification development for the single-file C HTTP server (`src/main.c`)

Conventions of the embedding.

* A C `char` is a Lean `Char` with the same code; a C string is the `List Char`
  of its characters before the terminating NUL, so a string never holds NUL.
* A function with side effects returns the list of system calls it makes, in
  order, as `Event`s.  `send` is taken to transmit the whole buffer it is given.
* Writing past the end of a fixed-size array is undefined behaviour in C; the
  functions that can do so return `Option`, and `none` stands for that.
* What the program does after such a write depends on the layout of the frame.
  `handle_request_after` is the rest of the router for any strings the arrays
  may then hold, and `sscanf_adjacent` describes the frame in which `method[16]`
  lies directly after `path[256]`.
-/

namespace HTTPServer

/-! ## Constants and C library functions -/

/-- The macro `BUFFER_SIZE` of `main.c`. -/
def BUFFER_SIZE : Nat := 4096

/-- The C function `strrchr(s, c)` for a character `c` other than NUL: the
suffix of `s` that starts at the last occurrence of `c`, or `none` (a null
pointer) when `c` does not occur. -/
def strrchr : List Char → Char → Option (List Char)
  | [], _ => none
  | x :: xs, c =>
    match strrchr xs c with
    | some t => some t
    | none => if x = c then some (x :: xs) else none

/-- The C function `strcmp`: zero for equal strings, otherwise the sign of the
first difference (the terminator of the shorter string compares lowest). -/
def strcmp : List Char → List Char → Int
  | [], [] => 0
  | [], _ :: _ => -1
  | _ :: _, [] => 1
  | a :: as, b :: bs => if a = b then strcmp as bs else if a < b then -1 else 1

/-- The C function `strncmp`: `strcmp` on the first `n` characters. -/
def strncmp (a b : List Char) (n : Nat) : Int :=
  strcmp (a.take n) (b.take n)

/-- The C function `isspace` in the C locale. -/
def isspace (c : Char) : Bool :=
  c == ' ' || c == '\t' || c == '\n' || c == '\x0b' || c == '\x0c' || c == '\r'

/-- The string a `const char *` into a buffer denotes: the characters before
the first NUL. -/
def cstr (buffer : List Char) : List Char :=
  buffer.takeWhile (fun c => c != '\x00')

/-- The C function `snprintf(dst, size, ...)` followed by reading `dst` back
as a string: the formatted text cut to `size - 1` characters. -/
def snprintf (size : Nat) (formatted : List Char) : List Char :=
  formatted.take (size - 1)

/-- The conversion `%d` (and `%ld`): a signed integer in decimal. -/
def fmt_d (i : Int) : List Char :=
  (toString i).toList

/-! ## MIME resolver -/

/-- The function `get_mime_type` of `main.c`. -/
def get_mime_type (filename : List Char) : List Char :=
  match strrchr filename '.' with
  | none => "text/plain".toList
  | some ext =>
    if strcmp ext ".html".toList = 0 then "text/html".toList
    else if strcmp ext ".css".toList = 0 then "text/css".toList
    else if strcmp ext ".js".toList = 0 then "application/javascript".toList
    else if strcmp ext ".jpg".toList = 0 ∨ strcmp ext ".jpeg".toList = 0 then "image/jpeg".toList
    else if strcmp ext ".png".toList = 0 then "image/png".toList
    else if strcmp ext ".gif".toList = 0 then "image/gif".toList
    else if strcmp ext ".json".toList = 0 then "application/json".toList
    else "text/plain".toList

/-- The fixed MIME table of the specification (section 4.1): extension, with
its leading dot, to content type. -/
def mimeTable : List (List Char × List Char) :=
  [ (".html".toList, "text/html".toList),
    (".css".toList, "text/css".toList),
    (".js".toList, "application/javascript".toList),
    (".jpg".toList, "image/jpeg".toList),
    (".jpeg".toList, "image/jpeg".toList),
    (".png".toList, "image/png".toList),
    (".gif".toList, "image/gif".toList),
    (".json".toList, "application/json".toList) ]

/-- The substring of `path` from its last `.` (inclusive) to the end, as the
specification words it; `none` when `path` has no `.`. -/
def finalExtension (path : List Char) : Option (List Char) :=
  if '.' ∈ path then
    some ('.' :: (path.reverse.takeWhile (fun c => decide (c ≠ '.'))).reverse)
  else none

/-- The reference lookup of the specification (section 4.1): the final
extension is looked up, case-sensitively, in the MIME table; an absent or
unlisted extension gives `text/plain`. -/
def resolve_mime (path : List Char) : List Char :=
  match finalExtension path with
  | none => "text/plain".toList
  | some ext =>
    match mimeTable.find? (fun row => decide (row.1 = ext)) with
    | some row => row.2
    | none => "text/plain".toList

/-! ## System calls -/

/-- The `whence` argument of `lseek`. -/
inductive Whence where
  | SEEK_SET
  | SEEK_END
  deriving DecidableEq, Repr

/-- One system call (or library output call) made by the server, with its
arguments and its return value where the program uses it. -/
inductive Event where
  /-- The call `open(path, O_RDONLY)` returning `ret`. -/
  | open_ (path : List Char) (ret : Int)
  /-- The call `lseek(fd, 0, whence)` returning `ret`. -/
  | lseek (fd : Int) (whence : Whence) (ret : Int)
  /-- The call `read(fd, buffer, count)` returning `ret`. -/
  | read (fd : Int) (count : Nat) (ret : Int)
  /-- The call `send(sock, data, length of data, 0)`. -/
  | send (sock : Int) (data : List Char)
  /-- The call `close(fd)`. -/
  | close (fd : Int)
  /-- A `printf` writing `text` to standard output. -/
  | printf (text : List Char)
  /-- A `perror` writing a diagnostic for `text` to standard error. -/
  | perror (text : List Char)
  deriving DecidableEq, Repr

/-- What one `read` of the open file returns: some bytes, the end of the file
(0), or an error (-1). -/
inductive ReadOutcome where
  | data (bytes : List Char)
  | eof
  | error
  deriving DecidableEq, Repr

/-- The answers of the operating system during one call of `send_file`: the
value `open` returns (negative when it fails), the values the two `lseek` calls
return, and the outcomes of the successive reads (the end of the file once
they are used up). -/
structure FileCalls where
  fd : Int
  size : Int
  rewound : Int
  reads : List ReadOutcome
  deriving DecidableEq, Repr

/-- The part of the machine state that `send_file` consults: for every path,
the answers of the operating system to the calls `send_file` makes on it.  The
size that `lseek` returns is an `off_t`, a signed integer of 64 bits. -/
structure FileSystem where
  calls : List Char → FileCalls
  size_ok : ∀ path, -(2 ^ 63) ≤ (calls path).size ∧ (calls path).size < 2 ^ 63

/-- The answers of the operating system in the machine state `fs` for the
file under `filepath`. -/
def file_calls (fs : FileSystem) (filepath : List Char) : FileCalls :=
  fs.calls filepath

/-- The bytes that the successive reads deliver until the first one that
returns no byte or fails; a read delivers at most `BUFFER_SIZE` bytes. -/
def streamed : List ReadOutcome → List Char
  | [] => []
  | ReadOutcome.eof :: _ => []
  | ReadOutcome.error :: _ => []
  | ReadOutcome.data bytes :: rest =>
    if bytes.take BUFFER_SIZE = [] then []
    else bytes.take BUFFER_SIZE ++ streamed rest

/-- The contents of the file that `open(path, O_RDONLY)` opens, as its reads
deliver them; `none` when the call fails, for whatever reason. -/
def FileSystem.files (fs : FileSystem) (path : List Char) : Option (List Char) :=
  if (fs.calls path).fd < 0 then none else some (streamed (fs.calls path).reads)

/-- The bytes handed to `send` on socket `sock`, in order: what the client
receives. -/
def sent (sock : Int) : List Event → List Char
  | [] => []
  | Event.send s data :: rest => if s = sock then data ++ sent sock rest else sent sock rest
  | _ :: rest => sent sock rest

/-- The paths handed to `open`, in order. -/
def opened : List Event → List (List Char)
  | [] => []
  | Event.open_ path _ :: rest => path :: opened rest
  | _ :: rest => opened rest

/-! ## Error responder -/

/-- The function `send_error` of `main.c`. -/
def send_error (client_socket : Int) (status_code : Int) (message : List Char) : List Event :=
  let response := snprintf BUFFER_SIZE
    ("HTTP/1.1 ".toList ++ fmt_d status_code ++ " ".toList ++ message ++ "\r\n".toList ++
     "Content-Type: text/html\r\n".toList ++
     "Connection: close\r\n".toList ++
     "\r\n".toList ++
     "<html><body><h1>".toList ++ fmt_d status_code ++ " ".toList ++ message ++
       "</h1><p>".toList ++ message ++ "</p></body></html>\n".toList)
  [Event.send client_socket response]

/-! ## File sender -/

/-- The loop `while ((bytes_read = read(file_fd, buffer, sizeof(buffer))) > 0)
send(client_socket, buffer, bytes_read, 0);` of `send_file`, against given
read outcomes.  A read returns at most the `BUFFER_SIZE` bytes asked for; the
loop ends at the first read that returns no byte or fails. -/
def read_loop_on (client_socket file_fd : Int) : List ReadOutcome → List Event
  | [] => [Event.read file_fd BUFFER_SIZE 0]
  | ReadOutcome.eof :: _ => [Event.read file_fd BUFFER_SIZE 0]
  | ReadOutcome.error :: _ => [Event.read file_fd BUFFER_SIZE (-1)]
  | ReadOutcome.data bytes :: rest =>
    if bytes.take BUFFER_SIZE = [] then
      [Event.read file_fd BUFFER_SIZE 0]
    else
      Event.read file_fd BUFFER_SIZE (bytes.take BUFFER_SIZE).length ::
      Event.send client_socket (bytes.take BUFFER_SIZE) ::
      read_loop_on client_socket file_fd rest

/-- The function `send_file` of `main.c` against given answers of the
operating system, read errors and short reads included. -/
def send_file_on (os : FileCalls) (client_socket : Int) (filepath : List Char) :
    List Event :=
  let file_fd := os.fd
  if file_fd < 0 then
    Event.open_ filepath file_fd :: send_error client_socket 404 "Not Found".toList
  else
    let file_size := os.size
    let mime_type := get_mime_type filepath
    let headers := snprintf BUFFER_SIZE
      ("HTTP/1.1 200 OK\r\n".toList ++
       "Content-Type: ".toList ++ mime_type ++ "\r\n".toList ++
       "Content-Length: ".toList ++ fmt_d file_size ++ "\r\n".toList ++
       "Connection: close\r\n".toList ++
       "\r\n".toList)
    [Event.open_ filepath file_fd,
     Event.lseek file_fd Whence.SEEK_END file_size,
     Event.lseek file_fd Whence.SEEK_SET os.rewound,
     Event.send client_socket headers] ++
    read_loop_on client_socket file_fd os.reads ++
    [Event.close file_fd]

/-- The function `send_file` of `main.c` in the machine state `fs`: the
operating system answers as `fs` says for the path. -/
def send_file (fs : FileSystem) (client_socket : Int) (filepath : List Char) : List Event :=
  send_file_on (file_calls fs filepath) client_socket filepath

/-- The reads of a regular file of contents `rest` that succeed: chunks of
`BUFFER_SIZE` bytes, the last one shorter; `fuel` bounds their number. -/
def chunk_reads : Nat → List Char → List ReadOutcome
  | 0, _ => []
  | fuel + 1, rest =>
    if rest = [] then []
    else ReadOutcome.data (rest.take BUFFER_SIZE) :: chunk_reads fuel (rest.drop BUFFER_SIZE)

/-- The answers for a regular file of contents `content` that is read without
error: `open` returns `fd`, `lseek` the length of the file (an `off_t`, the
file having fewer than `2 ^ 63` bytes), and the reads its bytes in chunks. -/
def regular_file (fd : Nat) (content : List Char) : FileCalls :=
  ⟨fd, ((content.length % 2 ^ 63 : Nat) : Int), 0, chunk_reads content.length content⟩

/-- The answers for a path that cannot be opened. -/
def no_file : FileCalls :=
  ⟨-1, 0, 0, []⟩

/-! ## Request router -/

/-- What the format `"%s %s"` matches in a string: nothing (`sscanf` returns
`EOF`), one token, or two tokens. -/
inductive Scanned where
  | eof
  | one (method : List Char)
  | two (method path : List Char)
  deriving DecidableEq, Repr

/-- The tokens matched, in order. -/
def Scanned.tokens : Scanned → List (List Char)
  | Scanned.eof => []
  | Scanned.one method => [method]
  | Scanned.two method path => [method, path]

/-- One `%s` conversion: white space is skipped, then the characters up to the
next white space or the end of the string are taken.  The result is the token
and the unread rest, or `none` at an input failure (the string ends before any
character is matched). -/
def scan_s (input : List Char) : Option (List Char × List Char) :=
  let s := input.dropWhile isspace
  if s = [] then none
  else some (s.takeWhile (fun c => !isspace c), s.dropWhile (fun c => !isspace c))

/-- The matching done by `sscanf(request, "%s %s", ...)` on the string that
`request` points to, sizes of the destination arrays aside.  The blank in
the format skips white space, as the second `%s` does anyway. -/
def scan_two (request : List Char) : Scanned :=
  match scan_s (cstr request) with
  | none => Scanned.eof
  | some (method, rest) =>
    match scan_s (rest.dropWhile isspace) with
    | none => Scanned.one method
    | some (path, _) => Scanned.two method path

/-- The call `sscanf(request, "%s %s", method, path)` where `method` is an array
of `cap1` and `path` an array of `cap2` characters.  A token is stored with a
terminating NUL, so a token of `cap` or more characters is written past the
end of its array: undefined behaviour, `none`. -/
def sscanf_s_s (request : List Char) (cap1 cap2 : Nat) : Option Scanned :=
  match scan_two request with
  | Scanned.eof => some Scanned.eof
  | Scanned.one method =>
    if cap1 ≤ method.length then none else some (Scanned.one method)
  | Scanned.two method path =>
    if cap1 ≤ method.length then none
    else if cap2 ≤ path.length then none
    else some (Scanned.two method path)

/-- The response literal of the route `/` in `handle_request`. -/
def index_response : List Char :=
  ("HTTP/1.1 200 OK\r\n" ++
   "Content-Type: text/html\r\n" ++
   "Connection: close\r\n" ++
   "\r\n" ++
   "<!DOCTYPE html>\n" ++
   "<html>\n" ++
   "<head>\n" ++
   "    <title>C HTTP Server</title>\n" ++
   "    <style>\n" ++
   "        body \x7b font-family: Arial, sans-serif; margin: 40px; \x7d\n" ++
   "        h1 \x7b color: #333; \x7d\n" ++
   "    </style>\n" ++
   "</head>\n" ++
   "<body>\n" ++
   "    <h1>Welcome to C HTTP Server</h1>\n" ++
   "    <p>Available routes:</p>\n" ++
   "    <ul>\n" ++
   "        <li><a href=\"/\">Home</a></li>\n" ++
   "        <li><a href=\"/about\">About</a></li>\n" ++
   "        <li><a href=\"/api/status\">API Status</a></li>\n" ++
   "    </ul>\n" ++
   "</body>\n" ++
   "</html>\n").toList

/-- The response literal of the route `/about` in `handle_request`. -/
def about_response : List Char :=
  ("HTTP/1.1 200 OK\r\n" ++
   "Content-Type: text/html\r\n" ++
   "Connection: close\r\n" ++
   "\r\n" ++
   "<html><body><h1>About</h1><p>This is a simple HTTP server written in C.</p></body></html>\n").toList

/-- The response literal of the route `/api/status` in `handle_request`. -/
def status_response : List Char :=
  ("HTTP/1.1 200 OK\r\n" ++
   "Content-Type: application/json\r\n" ++
   "Connection: close\r\n" ++
   "\r\n" ++
   "\x7b\"status\": \"ok\", \"message\": \"Server is running\"\x7d\n").toList

/-- The function `handle_request` of `main.c`; `none` when the request makes
`sscanf` write past the end of `method[16]` or `path[256]`. -/
def handle_request (fs : FileSystem) (client_socket : Int) (request : List Char) :
    Option (List Event) :=
  match sscanf_s_s request 16 256 with
  | none => none
  | some (Scanned.two method path) =>
    some (Event.printf ("Request: ".toList ++ method ++ " ".toList ++ path ++ "\n".toList) ::
      (if strcmp method "GET".toList ≠ 0 then
        send_error client_socket 501 "Not Implemented".toList
      else if strcmp path "/".toList = 0 then
        [Event.send client_socket index_response]
      else if strcmp path "/about".toList = 0 then
        [Event.send client_socket about_response]
      else if strcmp path "/api/status".toList = 0 then
        [Event.send client_socket status_response]
      else if strncmp path "/static/".toList 8 = 0 then
        let filepath := snprintf 512 (".".toList ++ path)
        send_file fs client_socket filepath
      else
        send_error client_socket 404 "Not Found".toList))
  | some _ =>
    some (send_error client_socket 400 "Bad Request".toList)

/-- The statements of `handle_request` that follow the call of `sscanf`
(main.c:84-155), as a function of what the call has left behind: `scanned` is
`Scanned.two method path` when the call returned 2, `method` and `path` being
the strings that the two arrays hold after it, and another value when the call
returned something else. -/
def handle_request_after (fs : FileSystem) (client_socket : Int) : Scanned → List Event
  | Scanned.two method path =>
    Event.printf ("Request: ".toList ++ method ++ " ".toList ++ path ++ "\n".toList) ::
      (if strcmp method "GET".toList ≠ 0 then
        send_error client_socket 501 "Not Implemented".toList
      else if strcmp path "/".toList = 0 then
        [Event.send client_socket index_response]
      else if strcmp path "/about".toList = 0 then
        [Event.send client_socket about_response]
      else if strcmp path "/api/status".toList = 0 then
        [Event.send client_socket status_response]
      else if strncmp path "/static/".toList 8 = 0 then
        let filepath := snprintf 512 (".".toList ++ path)
        send_file fs client_socket filepath
      else
        send_error client_socket 404 "Not Found".toList)
  | _ =>
    send_error client_socket 400 "Bad Request".toList

/-- The call `sscanf(request, "%s %s", method, path)` in a frame in which
`method[16]` lies directly after `path[256]`: what the call returns and the
strings that the two arrays hold after it.  The first token is stored first,
then the second.  A second token of 256 to 271 characters runs on from `path`
into `method`: its terminator stands in `method`, so `path` reads back as the
whole token and `method` as the characters of that token from the 257th on.
The result is `none` when a token is written past the end of `method`, where
the two arrays end. -/
def sscanf_adjacent (request : List Char) : Option Scanned :=
  match scan_two request with
  | Scanned.eof => some Scanned.eof
  | Scanned.one method =>
    if 16 ≤ method.length then none else some (Scanned.one method)
  | Scanned.two method path =>
    if 16 ≤ method.length then none
    else if 256 + 16 ≤ path.length then none
    else if 256 ≤ path.length then some (Scanned.two (path.drop 256) path)
    else some (Scanned.two method path)

/-- The function `handle_request` of `main.c` in a frame in which `method[16]`
lies directly after `path[256]`; `none` when `sscanf` writes past the end of
`method`. -/
def handle_request_adjacent (fs : FileSystem) (client_socket : Int) (request : List Char) :
    Option (List Event) :=
  match sscanf_adjacent request with
  | none => none
  | some scanned => some (handle_request_after fs client_socket scanned)

/-! ## Reading a response as a client does -/

/-- A response as a client reads it: the status line, the header lines and the
body. -/
structure Response where
  statusLine : List Char
  headers : List (List Char)
  body : List Char
  deriving DecidableEq, Repr

/-- The bytes before the first blank line (CRLF CRLF) and the bytes after it;
`none` when there is no blank line. -/
def splitHead : List Char → Option (List Char × List Char)
  | [] => none
  | c :: rest =>
    if (c :: rest).take 4 = "\r\n\r\n".toList then some ([], rest.drop 3)
    else
      match splitHead rest with
      | some (head, body) => some (c :: head, body)
      | none => none

/-- The lines of `text`, which are separated by CRLF; `cur` holds the
characters of the current line read so far, last one first. -/
def splitLinesAux : List Char → List Char → List (List Char)
  | cur, [] => [cur.reverse]
  | cur, '\r' :: '\n' :: rest => cur.reverse :: splitLinesAux [] rest
  | cur, c :: rest => splitLinesAux (c :: cur) rest

/-- The header lines written out: each one preceded by CRLF. -/
def joinLines : List (List Char) → List Char
  | [] => []
  | line :: rest => "\r\n".toList ++ line ++ joinLines rest

/-- The status line, header lines and body of the bytes of a response. -/
def parseResponse (bytes : List Char) : Option Response :=
  match splitHead bytes with
  | none => none
  | some (head, body) =>
    match splitLinesAux [] head with
    | [] => none
    | statusLine :: headers => some ⟨statusLine, headers, body⟩

/-- The response a client receives from `handle_request`, read as status line,
headers and body; `none` when the behaviour is undefined or the bytes sent
have no blank line. -/
def response_of (fs : FileSystem) (client_socket : Int) (request : List Char) :
    Option Response :=
  match handle_request fs client_socket request with
  | none => none
  | some trace => parseResponse (sent client_socket trace)

/-- A machine state in which no file can be opened. -/
def noFiles : FileSystem :=
  ⟨fun _ => no_file, fun _ => by
    show -(2 ^ 63) ≤ no_file.size ∧ no_file.size < 2 ^ 63
    decide⟩

/-- A machine state with the one file `path`, a regular file of contents
`content`. -/
def oneFile (path content : List Char) : FileSystem :=
  ⟨fun p => if p = path then regular_file 3 content else no_file, fun p => by
    by_cases h : p = path
    · simp only [h, if_true, regular_file]
      constructor
      · exact le_trans (by decide) (Int.ofNat_nonneg _)
      · have : content.length % 2 ^ 63 < 2 ^ 63 := Nat.mod_lt _ (by decide)
        exact_mod_cast this
    · simp only [h, if_false]
      show -(2 ^ 63) ≤ no_file.size ∧ no_file.size < 2 ^ 63
      decide⟩

/-- The first line of the request in `buffer`: the characters of its string
before the first line feed. -/
def firstLine (buffer : List Char) : List Char :=
  (cstr buffer).takeWhile (fun c => c != '\n')

/-- The request `GET path HTTP/1.1` with no header lines. -/
def get_request (path : List Char) : List Char :=
  "GET ".toList ++ path ++ " HTTP/1.1\r\n\r\n".toList

/-- A path of 256 characters under `/static/`, whose last segment is `c`
repeated 248 times. -/
def long_static_path (c : Char) : List Char :=
  "/static/".toList ++ List.replicate 248 c

/-- A path of 256 characters outside every route. -/
def long_unknown_path : List Char :=
  '/' :: List.replicate 255 'x'

/-- A path of 259 characters under `/static/` whose last three characters, the
257th to the 259th, are `GET`. -/
def path_ending_in_get : List Char :=
  "/static/".toList ++ List.replicate 248 'a' ++ "GET".toList

/-- The request `POST path HTTP/1.1` with no header lines. -/
def post_request (path : List Char) : List Char :=
  "POST ".toList ++ path ++ " HTTP/1.1\r\n\r\n".toList

/-- A request whose first line holds the method only, the path standing on
the second line. -/
def request_split_lines : List Char :=
  "GET\r\n/about\r\n\r\n".toList

/-! ## Further inputs and readers -/

/-- The 200 response of `send_file` as a client reads it, for a file served
under the path `filepath` of which `lseek` gave the size `size` and the reads
delivered `content`. -/
def file_response (filepath : List Char) (size : Int) (content : List Char) : Response :=
  ⟨"HTTP/1.1 200 OK".toList,
   ["Content-Type: ".toList ++ get_mime_type filepath,
    "Content-Length: ".toList ++ fmt_d size,
    "Connection: close".toList],
   content⟩

/-- The response of `send_error` as a client reads it, when the reason holds
no carriage return and the text fits the buffer. -/
def error_response (status_code : Int) (message : List Char) : Response :=
  ⟨"HTTP/1.1 ".toList ++ fmt_d status_code ++ " ".toList ++ message,
   ["Content-Type: text/html".toList, "Connection: close".toList],
   "<html><body><h1>".toList ++ fmt_d status_code ++ " ".toList ++ message ++
     "</h1><p>".toList ++ message ++ "</p></body></html>\n".toList⟩

/-- Whether a response has a `Content-Length` header. -/
def hasContentLength (r : Response) : Prop :=
  ∃ line ∈ r.headers, "Content-Length:".toList <+: line

/-- A path of 600 bytes under `/static/` with three segments, of 250, 250 and
90 bytes, each short enough for a file name. -/
def deep_static_path (x y z : Char) : List Char :=
  "/static/".toList ++ List.replicate 250 x ++ "/".toList ++ List.replicate 250 y ++
    "/".toList ++ List.replicate 90 z

/-- What follows the first occurrence of `needle` in a text; `none` when it
does not occur. -/
def afterFirst (needle : List Char) : List Char → Option (List Char)
  | [] => none
  | c :: s =>
    if needle <+: c :: s then some ((c :: s).drop needle.length)
    else afterFirst needle s

/-- What precedes the first occurrence of `needle` in a text; `none` when it
does not occur. -/
def beforeFirst (needle : List Char) : List Char → Option (List Char)
  | [] => none
  | c :: s =>
    if needle <+: c :: s then some []
    else
      match beforeFirst needle s with
      | some t => some (c :: t)
      | none => none

/-- The text of the first element `tag` of an HTML text: what stands between
the first opening tag and the closing tag that follows it. -/
def elementText (tag html : List Char) : Option (List Char) :=
  match afterFirst ("<".toList ++ tag ++ ">".toList) html with
  | none => none
  | some rest => beforeFirst ("</".toList ++ tag ++ ">".toList) rest

/-- The matching of `"%s %s"` on a string with no NUL in it: `scan_two` after
the string has been cut at its terminator. -/
def scan_tokens (s : List Char) : Scanned :=
  match scan_s s with
  | none => Scanned.eof
  | some (method, rest) =>
    match scan_s (rest.dropWhile isspace) with
    | none => Scanned.one method
    | some (path, _) => Scanned.two method path

/-- A request whose first line holds the method only, the path `/` standing on
the second line. -/
def request_split_lines_index : List Char :=
  "GET\r\n/\r\n\r\n".toList

/-! ## Connection handler -/

/-- What the single `read` on an accepted connection finds: an error, or the
bytes the peer has sent so far (none at all when the peer has closed). -/
inductive Incoming where
  | error
  | data (bytes : List Char)
  deriving DecidableEq, Repr

/-- The call `read(client_socket, buffer, count)`: the count returned and the
bytes stored at the start of the buffer.  A read never stores more than
`count` bytes; it returns -1 on an error and 0 when the peer has closed. -/
def socket_read (incoming : Incoming) (count : Nat) : Int × List Char :=
  match incoming with
  | Incoming.error => (-1, [])
  | Incoming.data bytes => (((bytes.take count).length : Nat), bytes.take count)

/-- The array `char buffer[BUFFER_SIZE] = {0}` after `stored` has been written
at its start: the remaining cells still hold NUL. -/
def zero_filled (stored : List Char) : List Char :=
  stored ++ List.replicate (BUFFER_SIZE - stored.length) '\x00'

/-- The function `handle_client` of `main.c`, with `router` standing for the
call of `handle_request` (it is given the socket and the buffer); `none` when
the router has no defined behaviour. -/
def handle_client_with (router : Int → List Char → Option (List Event))
    (client_socket : Int) (incoming : Incoming) : Option (List Event) :=
  let result := socket_read incoming (BUFFER_SIZE - 1)
  let bytes_read := result.1
  let buffer := zero_filled result.2
  if bytes_read ≤ 0 then
    some [Event.read client_socket (BUFFER_SIZE - 1) bytes_read,
      Event.perror "read failed".toList,
      Event.close client_socket]
  else
    match router client_socket buffer with
    | none => none
    | some trace =>
      some (Event.read client_socket (BUFFER_SIZE - 1) bytes_read ::
        (trace ++ [Event.close client_socket]))

/-- The function `handle_client` of `main.c`; `none` when `handle_request` has
no defined behaviour. -/
def handle_client (fs : FileSystem) (client_socket : Int) (incoming : Incoming) :
    Option (List Event) :=
  handle_client_with (handle_request fs) client_socket incoming

/-- The values returned by the calls of `read` on descriptor `fd`, in order. -/
def reads_of (fd : Int) : List Event → List Int
  | [] => []
  | Event.read f _ ret :: rest => if f = fd then ret :: reads_of fd rest else reads_of fd rest
  | _ :: rest => reads_of fd rest

/-- The descriptors handed to `close`, in order. -/
def closes : List Event → List Int
  | [] => []
  | Event.close fd :: rest => fd :: closes rest
  | _ :: rest => closes rest

/-! ## Descriptors held -/

/-- The descriptors that are open after a trace, given those open before it:
a successful `open` adds its descriptor, `close` removes it. -/
def held : List Int → List Event → List Int
  | before, [] => before
  | before, Event.open_ _ ret :: rest =>
    if 0 ≤ ret then held (ret :: before) rest else held before rest
  | before, Event.close fd :: rest => held (before.erase fd) rest
  | before, _ :: rest => held before rest

/-! ## Theorems -/

set_option maxRecDepth 100000

/-! ### C library functions -/

theorem strcmp_eq_zero_iff (a b : List Char) : strcmp a b = 0 ↔ a = b := by
  induction a generalizing b with
  | nil => cases b <;> simp [strcmp]
  | cons x xs ih =>
    cases b with
    | nil => simp [strcmp]
    | cons y ys =>
      simp only [strcmp]
      by_cases hxy : x = y
      · simp [hxy, ih]
      · simp only [hxy, if_false, List.cons.injEq, false_and, iff_false]
        split <;> decide

theorem strncmp_static_eq_zero_iff (path : List Char) :
    strncmp path "/static/".toList 8 = 0 ↔ "/static/".toList <+: path := by
  unfold strncmp
  rw [strcmp_eq_zero_iff, List.prefix_iff_eq_take]
  constructor
  · intro h; exact h.symm
  · intro h; exact h.symm

theorem strrchr_none_iff (s : List Char) (c : Char) : strrchr s c = none ↔ c ∉ s := by
  induction s with
  | nil => simp [strrchr]
  | cons x xs ih =>
    simp only [strrchr]
    cases h : strrchr xs c with
    | some t =>
      have : ¬ (c ∉ xs) := fun hn => by simp [(ih).2 hn] at h
      simp at this
      simp [this]
    | none =>
      have hn := ih.1 h
      by_cases hx : x = c
      · simp [hx]
      · simp [hx, hn, Ne.symm hx]

theorem takeWhile_append_of_exists_neg {α : Type} (p : α → Bool) (l r : List α)
    (h : ∃ a ∈ l, p a = false) : (l ++ r).takeWhile p = l.takeWhile p := by
  induction l with
  | nil => simp at h
  | cons x xs ih =>
    cases hx : p x with
    | false => simp [List.takeWhile, hx]
    | true =>
      have h2 : ∃ a ∈ xs, p a = false := by
        obtain ⟨a, ha, hpa⟩ := h
        rcases List.mem_cons.1 ha with rfl | ha
        · rw [hx] at hpa; cases hpa
        · exact ⟨a, ha, hpa⟩
      simp [List.takeWhile, hx, ih h2]

theorem strrchr_eq_finalExtension (path : List Char) :
    strrchr path '.' = finalExtension path := by
  induction path with
  | nil => simp [strrchr, finalExtension]
  | cons x xs ih =>
    simp only [strrchr]
    by_cases hmem : '.' ∈ xs
    · rw [ih]
      have hsub : (xs.reverse ++ [x]).takeWhile (fun c => decide (c ≠ '.'))
          = xs.reverse.takeWhile (fun c => decide (c ≠ '.')) :=
        takeWhile_append_of_exists_neg _ _ _ ⟨'.', by simpa using hmem, by simp⟩
      unfold finalExtension
      rw [if_pos hmem, if_pos (List.mem_cons_of_mem _ hmem), List.reverse_cons, hsub]
    · rw [(strrchr_none_iff xs '.').2 hmem]
      by_cases hx : x = '.'
      · subst hx
        have hall : (xs.reverse ++ ['.']).takeWhile (fun c => decide (c ≠ '.')) = xs.reverse := by
          rw [List.takeWhile_append_of_pos]
          · simp [List.takeWhile]
          · intro a ha
            have : a ≠ '.' := fun h => hmem (by simpa [h] using ha)
            simpa using this
        unfold finalExtension
        rw [if_pos (List.mem_cons_self _ _), List.reverse_cons, hall, List.reverse_reverse]
        rfl
      · have : ¬ ('.' = x) := fun h => hx h.symm
        simp [finalExtension, hmem, hx, this]

theorem digitChar_ne_cr (d : Nat) (hd : d < 10) : Nat.digitChar d ≠ '\r' := by
  interval_cases d <;> decide

theorem toDigitsCore_no_cr (fuel n : Nat) (ds : List Char) (hds : ∀ c ∈ ds, c ≠ '\r') :
    ∀ c ∈ Nat.toDigitsCore 10 fuel n ds, c ≠ '\r' := by
  induction fuel generalizing n ds with
  | zero => simpa [Nat.toDigitsCore] using hds
  | succ fuel ih =>
    have hcons : ∀ c ∈ Nat.digitChar (n % 10) :: ds, c ≠ '\r' := by
      intro c hc
      rcases List.mem_cons.1 hc with rfl | hc
      · exact digitChar_ne_cr _ (Nat.mod_lt _ (by decide))
      · exact hds c hc
    rw [Nat.toDigitsCore]
    split
    · exact hcons
    · exact ih _ _ hcons

theorem repr_no_cr (n : Nat) : ∀ c ∈ (Nat.repr n).toList, c ≠ '\r' := by
  intro c hc
  have : (Nat.repr n).toList = Nat.toDigitsCore 10 (n + 1) n [] := rfl
  rw [this] at hc
  exact toDigitsCore_no_cr _ _ [] (by simp) c hc

theorem fmt_d_natCast (n : Nat) : fmt_d (n : Int) = (Nat.repr n).toList := rfl

theorem fmt_d_length_le (n : Nat) (h : n < 2 ^ 63) : (fmt_d (n : Int)).length ≤ 19 := by
  rw [fmt_d_natCast]
  exact Nat.repr_length n 19 (by decide) (lt_of_lt_of_le h (by norm_num))

/-- The size of a file as `lseek` returns it, an `off_t` of 64 bits, has at
most 20 characters in decimal, the sign included. -/
theorem fmt_d_off_t_length_le (i : Int) (hlo : -(2 ^ 63) ≤ i) (hhi : i < 2 ^ 63) :
    (fmt_d i).length ≤ 20 := by
  cases i with
  | ofNat n =>
    have hn : n < 2 ^ 63 := by
      have : (n : Int) < 2 ^ 63 := hhi
      exact_mod_cast this
    exact le_trans (fmt_d_length_le n hn) (by decide)
  | negSucc n =>
    have e : fmt_d (Int.negSucc n) = '-' :: (Nat.repr (n + 1)).toList := rfl
    rw [e, List.length_cons]
    have hn : n + 1 ≤ 2 ^ 63 := by
      have h1 : -(2 ^ 63 : Int) ≤ -((n : Int) + 1) := by
        rw [← Int.negSucc_eq]
        exact hlo
      have h2 : ((n + 1 : Nat) : Int) ≤ ((2 ^ 63 : Nat) : Int) := by
        push_cast
        linarith
      exact_mod_cast h2
    have h3 : (Nat.repr (n + 1)).length ≤ 19 :=
      Nat.repr_length (n + 1) 19 (by decide) (lt_of_le_of_lt hn (by norm_num))
    have h4 : (Nat.repr (n + 1)).toList.length ≤ 19 := h3
    omega

theorem digitChar_isDigit (d : Nat) (hd : d < 10) : (Nat.digitChar d).isDigit = true := by
  interval_cases d <;> decide

theorem toDigitsCore_isDigit (fuel n : Nat) (ds : List Char)
    (hds : ∀ c ∈ ds, c.isDigit = true) :
    ∀ c ∈ Nat.toDigitsCore 10 fuel n ds, c.isDigit = true := by
  induction fuel generalizing n ds with
  | zero => simpa [Nat.toDigitsCore] using hds
  | succ fuel ih =>
    have hcons : ∀ c ∈ Nat.digitChar (n % 10) :: ds, c.isDigit = true := by
      intro c hc
      rcases List.mem_cons.1 hc with rfl | hc
      · exact digitChar_isDigit _ (Nat.mod_lt _ (by decide))
      · exact hds c hc
    rw [Nat.toDigitsCore]
    split
    · exact hcons
    · exact ih _ _ hcons

theorem repr_isDigit (n : Nat) : ∀ c ∈ (Nat.repr n).toList, c.isDigit = true := by
  intro c hc
  have : (Nat.repr n).toList = Nat.toDigitsCore 10 (n + 1) n [] := rfl
  rw [this] at hc
  exact toDigitsCore_isDigit _ _ [] (by simp) c hc

theorem fmt_d_chars (i : Int) : ∀ c ∈ fmt_d i, c = '-' ∨ c.isDigit = true := by
  intro c hc
  cases i with
  | ofNat n => exact Or.inr (repr_isDigit n c hc)
  | negSucc n =>
    have : fmt_d (Int.negSucc n) = '-' :: (Nat.repr (n + 1)).toList := rfl
    rw [this] at hc
    rcases List.mem_cons.1 hc with rfl | hc
    · exact Or.inl rfl
    · exact Or.inr (repr_isDigit _ c hc)

theorem fmt_d_no_cr (i : Int) : ∀ c ∈ fmt_d i, c ≠ '\r' := by
  intro c hc h
  subst h
  rcases fmt_d_chars i _ hc with h | h <;> revert h <;> decide

theorem fmt_d_no_lt (i : Int) : ∀ c ∈ fmt_d i, c ≠ '<' := by
  intro c hc h
  subst h
  rcases fmt_d_chars i _ hc with h | h <;> revert h <;> decide

/-! ### MIME resolver -/

/-- C1. For every file path, `get_mime_type` returns what the reference lookup
of the specification returns: the substring from the last `.` to the end is
looked up case-sensitively in the fixed table, and a path with no `.` or with
an unlisted final extension gives `text/plain`. -/
theorem get_mime_type_eq_resolve_mime (path : List Char) :
    get_mime_type path = resolve_mime path := by
  unfold get_mime_type resolve_mime
  rw [strrchr_eq_finalExtension]
  cases finalExtension path with
  | none => rfl
  | some ext =>
    simp only [strcmp_eq_zero_iff, mimeTable, List.find?]
    by_cases h1 : ext = ".html".toList
    · subst h1; decide
    by_cases h2 : ext = ".css".toList
    · subst h2; decide
    by_cases h3 : ext = ".js".toList
    · subst h3; decide
    by_cases h4 : ext = ".jpg".toList
    · subst h4; decide
    by_cases h5 : ext = ".jpeg".toList
    · subst h5; decide
    by_cases h6 : ext = ".png".toList
    · subst h6; decide
    by_cases h7 : ext = ".gif".toList
    · subst h7; decide
    by_cases h8 : ext = ".json".toList
    · subst h8; decide
    have e1 : decide (".html".toList = ext) = false := by simpa using fun h => h1 h.symm
    have e2 : decide (".css".toList = ext) = false := by simpa using fun h => h2 h.symm
    have e3 : decide (".js".toList = ext) = false := by simpa using fun h => h3 h.symm
    have e4 : decide (".jpg".toList = ext) = false := by simpa using fun h => h4 h.symm
    have e5 : decide (".jpeg".toList = ext) = false := by simpa using fun h => h5 h.symm
    have e6 : decide (".png".toList = ext) = false := by simpa using fun h => h6 h.symm
    have e7 : decide (".gif".toList = ext) = false := by simpa using fun h => h7 h.symm
    have e8 : decide (".json".toList = ext) = false := by simpa using fun h => h8 h.symm
    simp only [e1, e2, e3, e4, e5, e6, e7, e8, h1, h2, h3, h4, h5, h6, h7, h8, if_false, or_self]

/-- The examples of the specification: a listed extension, no extension, a
two-dot name resolved by its last extension only, and an upper-case extension. -/
theorem get_mime_type_examples :
    get_mime_type "a/b.json".toList = "application/json".toList ∧
    get_mime_type "noext".toList = "text/plain".toList ∧
    get_mime_type "x.tar.gz".toList = "text/plain".toList ∧
    get_mime_type "index.HTML".toList = "text/plain".toList ∧
    get_mime_type "./static/photo.jpeg".toList = "image/jpeg".toList := by
  decide

theorem get_mime_type_length_le (filename : List Char) :
    (get_mime_type filename).length ≤ 22 := by
  unfold get_mime_type
  split
  · decide
  · split_ifs <;> decide

theorem get_mime_type_no_cr (filename : List Char) :
    ∀ c ∈ get_mime_type filename, c ≠ '\r' := by
  unfold get_mime_type
  split
  · decide
  · split_ifs <;> decide

/-! ### Traces -/

theorem sent_send_self (sock : Int) (data : List Char) (rest : List Event) :
    sent sock (Event.send sock data :: rest) = data ++ sent sock rest := by
  simp [sent]

theorem sent_printf (sock : Int) (text : List Char) (rest : List Event) :
    sent sock (Event.printf text :: rest) = sent sock rest := rfl

theorem sent_append (sock : Int) (a b : List Event) :
    sent sock (a ++ b) = sent sock a ++ sent sock b := by
  induction a with
  | nil => rfl
  | cons e es ih =>
    cases e with
    | send s data =>
      simp only [List.cons_append, sent]
      split <;> simp [ih]
    | _ => simpa [sent] using ih

theorem opened_printf (text : List Char) (rest : List Event) :
    opened (Event.printf text :: rest) = opened rest := rfl

theorem opened_append (a b : List Event) : opened (a ++ b) = opened a ++ opened b := by
  induction a with
  | nil => rfl
  | cons e es ih => cases e <;> simp [opened, ih]

theorem opened_send_error (client_socket status_code : Int) (message : List Char) :
    opened (send_error client_socket status_code message) = [] := by
  simp [send_error, opened]

theorem sent_send_error (client_socket status_code : Int) (message : List Char) :
    sent client_socket (send_error client_socket status_code message) =
      snprintf BUFFER_SIZE
        ("HTTP/1.1 ".toList ++ fmt_d status_code ++ " ".toList ++ message ++ "\r\n".toList ++
         "Content-Type: text/html\r\n".toList ++
         "Connection: close\r\n".toList ++
         "\r\n".toList ++
         "<html><body><h1>".toList ++ fmt_d status_code ++ " ".toList ++ message ++
           "</h1><p>".toList ++ message ++ "</p></body></html>\n".toList) := by
  simp [send_error, sent]

theorem reads_of_append (fd : Int) (a b : List Event) :
    reads_of fd (a ++ b) = reads_of fd a ++ reads_of fd b := by
  induction a with
  | nil => rfl
  | cons e es ih =>
    cases e with
    | read f count ret =>
      simp only [List.cons_append, reads_of]
      split <;> simp [ih]
    | _ => simpa [reads_of] using ih

theorem closes_append (a b : List Event) : closes (a ++ b) = closes a ++ closes b := by
  induction a with
  | nil => rfl
  | cons e es ih => cases e <;> simp [closes, ih]

theorem reads_of_send_error (fd client_socket status_code : Int) (message : List Char) :
    reads_of fd (send_error client_socket status_code message) = [] := by
  simp [send_error, reads_of]

theorem closes_send_error (client_socket status_code : Int) (message : List Char) :
    closes (send_error client_socket status_code message) = [] := by
  simp [send_error, closes]

/-! ### Responses as a client reads them -/

theorem splitHead_append_of_no_cr (l rest : List Char) (hl : ∀ c ∈ l, c ≠ '\r') :
    splitHead (l ++ rest) = (splitHead rest).map (fun hb => (l ++ hb.1, hb.2)) := by
  induction l with
  | nil =>
    rw [List.nil_append]
    cases splitHead rest <;> simp
  | cons c cs ih =>
    have hc : c ≠ '\r' := hl c (List.mem_cons_self _ _)
    have hne : ¬ ((c :: (cs ++ rest)).take 4 = "\r\n\r\n".toList) := by
      intro h
      simp only [List.take_succ_cons] at h
      exact hc (List.cons.inj h).1
    rw [List.cons_append, splitHead, if_neg hne, ih (fun c hc => hl c (List.mem_cons_of_mem _ hc))]
    cases splitHead rest <;> rfl

theorem splitHead_crlf_cons (x : Char) (rest : List Char) (hx : x ≠ '\r') :
    splitHead ('\r' :: '\n' :: x :: rest) =
      (splitHead (x :: rest)).map (fun hb => ('\r' :: '\n' :: hb.1, hb.2)) := by
  have h1 : ¬ (('\r' :: '\n' :: x :: rest).take 4 = "\r\n\r\n".toList) := by
    intro h
    simp only [List.take_succ_cons] at h
    exact hx (List.cons.inj (List.cons.inj (List.cons.inj h).2).2).1
  have h2 : ¬ (('\n' :: x :: rest).take 4 = "\r\n\r\n".toList) := by
    intro h
    simp only [List.take_succ_cons] at h
    exact absurd (List.cons.inj h).1 (by decide)
  rw [splitHead, if_neg h1, splitHead, if_neg h2]
  cases splitHead (x :: rest) with
  | none => rfl
  | some hb => rfl

theorem splitHead_joinLines (headers : List (List Char)) (body : List Char)
    (hcr : ∀ l ∈ headers, ∀ c ∈ l, c ≠ '\r') (hne : ∀ l ∈ headers, l ≠ []) :
    splitHead (joinLines headers ++ ("\r\n\r\n".toList ++ body)) =
      some (joinLines headers, body) := by
  induction headers with
  | nil => rfl
  | cons h hs ih =>
    have ih2 := ih (fun l hl => hcr l (List.mem_cons_of_mem _ hl))
      (fun l hl => hne l (List.mem_cons_of_mem _ hl))
    have hh := hcr h (List.mem_cons_self _ _)
    cases h with
    | nil => exact absurd rfl (hne [] (List.mem_cons_self _ _))
    | cons x xs =>
      have hx : x ≠ '\r' := hh x (List.mem_cons_self _ _)
      have e : joinLines ((x :: xs) :: hs) ++ ("\r\n\r\n".toList ++ body) =
          '\r' :: '\n' :: x :: (xs ++ (joinLines hs ++ ("\r\n\r\n".toList ++ body))) := by
        simp [joinLines]
      rw [e, splitHead_crlf_cons x _ hx]
      have e2 : x :: (xs ++ (joinLines hs ++ ("\r\n\r\n".toList ++ body))) =
          (x :: xs) ++ (joinLines hs ++ ("\r\n\r\n".toList ++ body)) := rfl
      rw [e2, splitHead_append_of_no_cr _ _ hh, ih2]
      simp [joinLines]

theorem splitLinesAux_append_of_no_cr (cur l rest : List Char) (hl : ∀ c ∈ l, c ≠ '\r') :
    splitLinesAux cur (l ++ rest) = splitLinesAux (l.reverse ++ cur) rest := by
  induction l generalizing cur with
  | nil => rfl
  | cons c cs ih =>
    have hc : c ≠ '\r' := hl c (List.mem_cons_self _ _)
    have step : splitLinesAux cur (c :: (cs ++ rest)) = splitLinesAux (c :: cur) (cs ++ rest) := by
      rw [splitLinesAux]
      intro rest2 h _
      exact hc h
    rw [List.cons_append, step, ih _ (fun c hc => hl c (List.mem_cons_of_mem _ hc))]
    simp

theorem splitLinesAux_joinLines (cur : List Char) (headers : List (List Char))
    (hcr : ∀ l ∈ headers, ∀ c ∈ l, c ≠ '\r') :
    splitLinesAux cur (joinLines headers) = cur.reverse :: headers := by
  induction headers generalizing cur with
  | nil => rfl
  | cons h hs ih =>
    have e : joinLines (h :: hs) = '\r' :: '\n' :: (h ++ joinLines hs) := by
      simp [joinLines]
    rw [e, splitLinesAux, splitLinesAux_append_of_no_cr _ _ _ (hcr h (List.mem_cons_self _ _)),
      ih _ (fun l hl => hcr l (List.mem_cons_of_mem _ hl))]
    simp

theorem parseResponse_lines (status : List Char) (headers : List (List Char)) (body : List Char)
    (hs : ∀ c ∈ status, c ≠ '\r')
    (hcr : ∀ l ∈ headers, ∀ c ∈ l, c ≠ '\r') (hne : ∀ l ∈ headers, l ≠ []) :
    parseResponse (status ++ joinLines headers ++ "\r\n\r\n".toList ++ body) =
      some ⟨status, headers, body⟩ := by
  unfold parseResponse
  rw [List.append_assoc, List.append_assoc, splitHead_append_of_no_cr _ _ hs,
    splitHead_joinLines headers body hcr hne]
  simp only [Option.map_some']
  rw [splitLinesAux_append_of_no_cr _ _ _ hs, splitLinesAux_joinLines _ _ hcr]
  simp

theorem parse_index_response :
    parseResponse index_response = some ⟨"HTTP/1.1 200 OK".toList,
      ["Content-Type: text/html".toList, "Connection: close".toList],
      index_response.drop 63⟩ := by decide!

theorem parse_about_response :
    parseResponse about_response = some ⟨"HTTP/1.1 200 OK".toList,
      ["Content-Type: text/html".toList, "Connection: close".toList],
      "<html><body><h1>About</h1><p>This is a simple HTTP server written in C.</p></body></html>\n".toList⟩ := by
  decide!

theorem parse_status_response :
    parseResponse status_response = some ⟨"HTTP/1.1 200 OK".toList,
      ["Content-Type: application/json".toList, "Connection: close".toList],
      "\x7b\"status\": \"ok\", \"message\": \"Server is running\"\x7d\n".toList⟩ := by
  decide!

theorem parse_error_400 (client_socket : Int) :
    parseResponse (sent client_socket (send_error client_socket 400 "Bad Request".toList)) =
      some ⟨"HTTP/1.1 400 Bad Request".toList,
        ["Content-Type: text/html".toList, "Connection: close".toList],
        "<html><body><h1>400 Bad Request</h1><p>Bad Request</p></body></html>\n".toList⟩ := by
  rw [sent_send_error]
  decide

theorem parse_error_404 (client_socket : Int) :
    parseResponse (sent client_socket (send_error client_socket 404 "Not Found".toList)) =
      some ⟨"HTTP/1.1 404 Not Found".toList,
        ["Content-Type: text/html".toList, "Connection: close".toList],
        "<html><body><h1>404 Not Found</h1><p>Not Found</p></body></html>\n".toList⟩ := by
  rw [sent_send_error]
  decide

theorem parse_error_501 (client_socket : Int) :
    parseResponse (sent client_socket (send_error client_socket 501 "Not Implemented".toList)) =
      some ⟨"HTTP/1.1 501 Not Implemented".toList,
        ["Content-Type: text/html".toList, "Connection: close".toList],
        "<html><body><h1>501 Not Implemented</h1><p>Not Implemented</p></body></html>\n".toList⟩ := by
  rw [sent_send_error]
  decide

theorem error_response_400 : error_response 400 "Bad Request".toList =
    ⟨"HTTP/1.1 400 Bad Request".toList,
      ["Content-Type: text/html".toList, "Connection: close".toList],
      "<html><body><h1>400 Bad Request</h1><p>Bad Request</p></body></html>\n".toList⟩ := by
  decide

theorem error_response_404 : error_response 404 "Not Found".toList =
    ⟨"HTTP/1.1 404 Not Found".toList,
      ["Content-Type: text/html".toList, "Connection: close".toList],
      "<html><body><h1>404 Not Found</h1><p>Not Found</p></body></html>\n".toList⟩ := by
  decide

theorem error_response_501 : error_response 501 "Not Implemented".toList =
    ⟨"HTTP/1.1 501 Not Implemented".toList,
      ["Content-Type: text/html".toList, "Connection: close".toList],
      "<html><body><h1>501 Not Implemented</h1><p>Not Implemented</p></body></html>\n".toList⟩ := by
  decide

/-! ### File sender -/

theorem closes_read_loop_on (client_socket file_fd : Int) (reads : List ReadOutcome) :
    closes (read_loop_on client_socket file_fd reads) = [] := by
  induction reads with
  | nil => rfl
  | cons r rs ih =>
    cases r with
    | data bytes =>
      rw [read_loop_on]
      split
      · rfl
      · simpa [closes] using ih
    | eof => rfl
    | error => rfl

theorem opened_read_loop_on (client_socket file_fd : Int) (reads : List ReadOutcome) :
    opened (read_loop_on client_socket file_fd reads) = [] := by
  induction reads with
  | nil => rfl
  | cons r rs ih =>
    cases r with
    | data bytes =>
      rw [read_loop_on]
      split
      · rfl
      · simpa [opened] using ih
    | eof => rfl
    | error => rfl

theorem sent_read_loop_on (client_socket file_fd : Int) (reads : List ReadOutcome) :
    sent client_socket (read_loop_on client_socket file_fd reads) = streamed reads := by
  induction reads with
  | nil => rfl
  | cons r rs ih =>
    cases r with
    | data bytes =>
      rw [read_loop_on, streamed]
      split
      · rfl
      · simp only [sent, if_true]
        rw [ih]
    | eof => rfl
    | error => rfl

theorem reads_of_read_loop_on (fd client_socket file_fd : Int) (reads : List ReadOutcome)
    (hfd : file_fd ≠ fd) :
    reads_of fd (read_loop_on client_socket file_fd reads) = [] := by
  induction reads with
  | nil => simp [read_loop_on, reads_of, hfd]
  | cons r rs ih =>
    cases r with
    | data bytes =>
      rw [read_loop_on]
      split
      · simp [reads_of, hfd]
      · simpa [reads_of, hfd] using ih
    | eof => simp [read_loop_on, reads_of, hfd]
    | error => simp [read_loop_on, reads_of, hfd]

/-- The reads of a regular file deliver its contents. -/
theorem streamed_chunk_reads (fuel : Nat) (content : List Char)
    (h : content.length ≤ fuel) :
    streamed (chunk_reads fuel content) = content := by
  induction fuel generalizing content with
  | zero =>
    have h0 : content = [] := List.length_eq_zero.1 (Nat.le_zero.1 h)
    subst h0
    rfl
  | succ fuel ih =>
    rw [chunk_reads]
    by_cases h0 : content = []
    · rw [if_pos h0, h0]
      rfl
    · rw [if_neg h0, streamed]
      have htake : (content.take BUFFER_SIZE).take BUFFER_SIZE = content.take BUFFER_SIZE := by
        rw [List.take_take, min_self]
      have hne : content.take BUFFER_SIZE ≠ [] := by
        cases content with
        | nil => exact absurd rfl h0
        | cons c cs => simp [BUFFER_SIZE]
      have hpos : 0 < content.length := List.length_pos.2 h0
      have hdrop : (content.drop BUFFER_SIZE).length ≤ fuel := by
        rw [List.length_drop]
        simp only [BUFFER_SIZE]
        omega
      rw [htake, if_neg hne, ih _ hdrop, List.take_append_drop]

/-- When `open` succeeds, what the reads deliver is the contents of the file. -/
theorem files_eq_some (fs : FileSystem) (path content : List Char)
    (h : fs.files path = some content) :
    ¬ ((file_calls fs path).fd < 0) ∧ streamed (file_calls fs path).reads = content := by
  unfold FileSystem.files at h
  unfold file_calls
  by_cases hfd : (fs.calls path).fd < 0
  · rw [if_pos hfd] at h
    cases h
  · rw [if_neg hfd] at h
    exact ⟨hfd, Option.some.inj h⟩

theorem files_eq_none (fs : FileSystem) (path : List Char) (h : fs.files path = none) :
    (file_calls fs path).fd < 0 := by
  unfold FileSystem.files at h
  unfold file_calls
  by_cases hfd : (fs.calls path).fd < 0
  · exact hfd
  · rw [if_neg hfd] at h
    cases h

/-- A regular file that is read without error opens, has its length as size
and its bytes as contents. -/
theorem files_regular_file (fs : FileSystem) (path content : List Char) (fd : Nat)
    (h : file_calls fs path = regular_file fd content)
    (hsize : content.length < 2 ^ 63) :
    fs.files path = some content ∧ (file_calls fs path).size = (content.length : Int) := by
  have hc : fs.calls path = regular_file fd content := h
  constructor
  · unfold FileSystem.files
    rw [hc]
    have hfd : ¬ ((regular_file fd content).fd < 0) := not_lt.2 (Int.ofNat_nonneg _)
    rw [if_neg hfd]
    exact congrArg some (streamed_chunk_reads _ _ (le_refl _))
  · rw [h]
    show ((content.length % 2 ^ 63 : Nat) : Int) = (content.length : Int)
    rw [Nat.mod_eq_of_lt hsize]

theorem opened_send_file (fs : FileSystem) (client_socket : Int) (filepath : List Char) :
    opened (send_file fs client_socket filepath) = [filepath] := by
  unfold send_file send_file_on
  by_cases h : (file_calls fs filepath).fd < 0
  · simp [h, opened, opened_send_error]
  · simp [h, opened, opened_append, opened_read_loop_on]

/-- The bytes a client receives when the file opens: the header block with the
resolved content type and the size that `lseek` returned, then the bytes that
the reads delivered.  The size is an `off_t`, so the header block fits its
buffer. -/
theorem sent_send_file_of_open (fs : FileSystem) (client_socket : Int)
    (filepath content : List Char) (hopen : fs.files filepath = some content) :
    sent client_socket (send_file fs client_socket filepath) =
      "HTTP/1.1 200 OK\r\n".toList ++
      "Content-Type: ".toList ++ get_mime_type filepath ++ "\r\n".toList ++
      "Content-Length: ".toList ++ fmt_d (file_calls fs filepath).size ++ "\r\n".toList ++
      "Connection: close\r\n".toList ++
      "\r\n".toList ++ content := by
  obtain ⟨hfd, hstream⟩ := files_eq_some fs filepath content hopen
  unfold send_file send_file_on
  simp only [hfd, if_false]
  have hfit : snprintf BUFFER_SIZE
      ("HTTP/1.1 200 OK\r\n".toList ++
       "Content-Type: ".toList ++ get_mime_type filepath ++ "\r\n".toList ++
       "Content-Length: ".toList ++ fmt_d (file_calls fs filepath).size ++ "\r\n".toList ++
       "Connection: close\r\n".toList ++
       "\r\n".toList) =
      "HTTP/1.1 200 OK\r\n".toList ++
       "Content-Type: ".toList ++ get_mime_type filepath ++ "\r\n".toList ++
       "Content-Length: ".toList ++ fmt_d (file_calls fs filepath).size ++ "\r\n".toList ++
       "Connection: close\r\n".toList ++
       "\r\n".toList := by
    unfold snprintf
    apply List.take_of_length_le
    have h1 := get_mime_type_length_le filepath
    have h2 : (fmt_d (file_calls fs filepath).size).length ≤ 20 :=
      fmt_d_off_t_length_le _ (fs.size_ok filepath).1 (fs.size_ok filepath).2
    simp only [List.length_append, BUFFER_SIZE]
    have e1 : "HTTP/1.1 200 OK\r\n".toList.length = 17 := by decide
    have e2 : "Content-Type: ".toList.length = 14 := by decide
    have e3 : "\r\n".toList.length = 2 := by decide
    have e4 : "Content-Length: ".toList.length = 16 := by decide
    have e5 : "Connection: close\r\n".toList.length = 19 := by decide
    rw [e1, e2, e3, e4, e5]
    omega
  rw [sent_append, sent_append, sent_read_loop_on, hfit, hstream]
  simp only [sent, if_true, List.append_nil]

/-- The response a client reads when the file opens: status line
`HTTP/1.1 200 OK` and exactly the headers `Content-Type` (the resolved MIME
type), `Content-Length` (the size that `lseek` returned, in decimal) and
`Connection: close`, then the bytes that the reads delivered as body. -/
theorem parse_send_file_of_open (fs : FileSystem) (client_socket : Int)
    (filepath content : List Char) (hopen : fs.files filepath = some content) :
    parseResponse (sent client_socket (send_file fs client_socket filepath)) =
      some (file_response filepath (file_calls fs filepath).size content) := by
  rw [sent_send_file_of_open fs client_socket filepath content hopen]
  have e : "HTTP/1.1 200 OK\r\n".toList ++
      "Content-Type: ".toList ++ get_mime_type filepath ++ "\r\n".toList ++
      "Content-Length: ".toList ++ fmt_d (file_calls fs filepath).size ++ "\r\n".toList ++
      "Connection: close\r\n".toList ++
      "\r\n".toList ++ content =
      "HTTP/1.1 200 OK".toList ++ joinLines
        ["Content-Type: ".toList ++ get_mime_type filepath,
         "Content-Length: ".toList ++ fmt_d (file_calls fs filepath).size,
         "Connection: close".toList] ++ "\r\n\r\n".toList ++ content := by
    simp [joinLines]
  rw [e]
  unfold file_response
  apply parseResponse_lines
  · decide
  · intro l hl c hc
    simp only [List.mem_cons, List.mem_singleton, List.not_mem_nil, or_false] at hl
    rcases hl with rfl | rfl | rfl
    · rcases List.mem_append.1 hc with h | h
      · exact (by decide : ∀ c ∈ "Content-Type: ".toList, c ≠ '\r') c h
      · exact get_mime_type_no_cr filepath c h
    · rcases List.mem_append.1 hc with h | h
      · exact (by decide : ∀ c ∈ "Content-Length: ".toList, c ≠ '\r') c h
      · exact fmt_d_no_cr _ c h
    · exact (by decide : ∀ c ∈ "Connection: close".toList, c ≠ '\r') c hc
  · intro l hl
    simp only [List.mem_cons, List.mem_singleton, List.not_mem_nil, or_false] at hl
    rcases hl with rfl | rfl | rfl <;> simp

theorem send_file_of_open_fails (fs : FileSystem) (client_socket : Int) (filepath : List Char)
    (hfail : fs.files filepath = none) :
    send_file fs client_socket filepath =
      Event.open_ filepath (file_calls fs filepath).fd ::
        send_error client_socket 404 "Not Found".toList := by
  have hfd := files_eq_none fs filepath hfail
  unfold send_file send_file_on
  simp only [hfd, if_true]

theorem reads_of_send_file (fs : FileSystem) (fd client_socket : Int) (filepath : List Char)
    (hfd : (file_calls fs filepath).fd ≠ fd) :
    reads_of fd (send_file fs client_socket filepath) = [] := by
  unfold send_file send_file_on
  by_cases h : (file_calls fs filepath).fd < 0
  · simp [h, reads_of, reads_of_send_error]
  · simp [h, reads_of, reads_of_append, reads_of_read_loop_on _ _ _ _ hfd]

theorem closes_send_file (fs : FileSystem) (client_socket : Int) (filepath : List Char) :
    closes (send_file fs client_socket filepath) =
      if (file_calls fs filepath).fd < 0 then [] else [(file_calls fs filepath).fd] := by
  unfold send_file send_file_on
  by_cases h : (file_calls fs filepath).fd < 0
  · simp [h, closes, closes_send_error]
  · simp [h, closes, closes_append, closes_read_loop_on]

/-- The file sender used by the router is the general one at the answers that
the machine state gives for the path. -/
theorem send_file_eq_send_file_on (fs : FileSystem) (client_socket : Int)
    (filepath : List Char) :
    send_file fs client_socket filepath =
      send_file_on (file_calls fs filepath) client_socket filepath := rfl

/-- The response when the file opened is not a regular one: for a directory,
of which `lseek` reports the size `2 ^ 63 - 1` and every read fails, the
`Content-Length` header holds that size and the body is empty. -/
theorem send_file_on_directory_trace :
    send_file_on ⟨3, 9223372036854775807, 0, [ReadOutcome.error]⟩ 7
      "./static/dir".toList =
      [Event.open_ "./static/dir".toList 3,
       Event.lseek 3 Whence.SEEK_END 9223372036854775807,
       Event.lseek 3 Whence.SEEK_SET 0,
       Event.send 7 ("HTTP/1.1 200 OK\r\nContent-Type: text/plain\r\n" ++
         "Content-Length: 9223372036854775807\r\nConnection: close\r\n\r\n").toList,
       Event.read 3 4096 (-1),
       Event.close 3] := by
  decide!

/-! ### Request parsing and routing -/

/-- An ordinary request line is matched as expected: for a path that is not
empty and holds no white space and no NUL, `GET path HTTP/1.1` gives the tokens
`GET` and `path`. -/
theorem scan_two_get_request (path : List Char) (hne : path ≠ [])
    (hp : ∀ c ∈ path, isspace c = false ∧ c ≠ '\x00') :
    scan_two (get_request path) = Scanned.two "GET".toList path := by
  have hcstr : cstr (get_request path) = get_request path := by
    unfold cstr get_request
    rw [List.takeWhile_eq_self_iff]
    intro c hc
    rcases List.mem_append.1 hc with h | h
    · rcases List.mem_append.1 h with h | h
      · exact (by decide : ∀ c ∈ "GET ".toList, (c != '\x00') = true) c h
      · simpa using (hp c h).2
    · exact (by decide : ∀ c ∈ " HTTP/1.1\r\n\r\n".toList, (c != '\x00') = true) c h
  have hnsp : ∀ c ∈ path, (!isspace c) = true := fun c hc => by simp [(hp c hc).1]
  cases path with
  | nil => exact absurd rfl hne
  | cons x xs =>
    have hx : isspace x = false := (hp x (List.mem_cons_self _ _)).1
    have htake : List.takeWhile (fun c => !isspace c) ((x :: xs) ++ " HTTP/1.1\r\n\r\n".toList) =
        x :: xs := by
      rw [List.takeWhile_append_of_pos hnsp]
      simp [List.takeWhile, isspace]
    unfold scan_two
    rw [hcstr]
    have e1 : scan_s (get_request (x :: xs)) =
        some ("GET".toList, " ".toList ++ ((x :: xs) ++ " HTTP/1.1\r\n\r\n".toList)) := by
      simp [scan_s, get_request, List.dropWhile, List.takeWhile, isspace]
    rw [e1]
    have d2 : ((x :: xs) ++ " HTTP/1.1\r\n\r\n".toList).dropWhile isspace =
        (x :: xs) ++ " HTTP/1.1\r\n\r\n".toList :=
      List.dropWhile_cons_of_neg (by simp [hx])
    have d1 : (" ".toList ++ ((x :: xs) ++ " HTTP/1.1\r\n\r\n".toList)).dropWhile isspace =
        (x :: xs) ++ " HTTP/1.1\r\n\r\n".toList := by
      have : " ".toList ++ ((x :: xs) ++ " HTTP/1.1\r\n\r\n".toList) =
          ' ' :: ((x :: xs) ++ " HTTP/1.1\r\n\r\n".toList) := rfl
      rw [this, List.dropWhile_cons_of_pos (by decide), d2]
    have e2 : scan_s ((x :: xs) ++ " HTTP/1.1\r\n\r\n".toList) =
        some (x :: xs, ((x :: xs) ++ " HTTP/1.1\r\n\r\n".toList).dropWhile (fun c => !isspace c)) := by
      unfold scan_s
      simp only [d2, htake]
      rw [if_neg (by simp)]
    simp only [d1, e2]

theorem sscanf_of_two {request method path : List Char}
    (h : scan_two request = Scanned.two method path)
    (hm : method.length ≤ 15) (hp : path.length ≤ 255) :
    sscanf_s_s request 16 256 = some (Scanned.two method path) := by
  have h1 : ¬ (16 ≤ method.length) := by omega
  have h2 : ¬ (256 ≤ path.length) := by omega
  simp [sscanf_s_s, h, h1, h2]

theorem handle_request_of_two (fs : FileSystem) (client_socket : Int)
    {request method path : List Char}
    (h : scan_two request = Scanned.two method path)
    (hm : method.length ≤ 15) (hp : path.length ≤ 255) :
    handle_request fs client_socket request =
      some (Event.printf ("Request: ".toList ++ method ++ " ".toList ++ path ++ "\n".toList) ::
        (if method ≠ "GET".toList then
          send_error client_socket 501 "Not Implemented".toList
        else if path = "/".toList then
          [Event.send client_socket index_response]
        else if path = "/about".toList then
          [Event.send client_socket about_response]
        else if path = "/api/status".toList then
          [Event.send client_socket status_response]
        else if "/static/".toList <+: path then
          send_file fs client_socket ('.' :: path)
        else
          send_error client_socket 404 "Not Found".toList)) := by
  unfold handle_request
  rw [sscanf_of_two h hm hp]
  have hsn : snprintf 512 (".".toList ++ path) = '.' :: path := by
    unfold snprintf
    apply List.take_of_length_le
    simp; omega
  simp only [strcmp_eq_zero_iff, strncmp_static_eq_zero_iff, hsn, ne_eq]

/-- When `handle_request` has defined behaviour, either fewer than two tokens
were matched and the 400 response is all it does, or two tokens were matched
that fit `method[16]` and `path[256]`. -/
theorem handle_request_some_cases (fs : FileSystem) (client_socket : Int)
    (request : List Char) (trace : List Event)
    (h : handle_request fs client_socket request = some trace) :
    (trace = send_error client_socket 400 "Bad Request".toList ∧
        (scan_two request).tokens.length < 2) ∨
    ∃ method path, scan_two request = Scanned.two method path ∧
      method.length ≤ 15 ∧ path.length ≤ 255 := by
  unfold handle_request sscanf_s_s at h
  cases hs : scan_two request with
  | eof =>
    rw [hs] at h
    simp only [Option.some.injEq] at h
    exact Or.inl ⟨h.symm, by simp [Scanned.tokens]⟩
  | one method =>
    rw [hs] at h
    by_cases hm : 16 ≤ method.length
    · simp [hm] at h
    · simp only [hm, if_false, Option.some.injEq] at h
      exact Or.inl ⟨h.symm, by simp [Scanned.tokens]⟩
  | two method path =>
    rw [hs] at h
    by_cases hm : 16 ≤ method.length
    · simp [hm] at h
    · by_cases hp : 256 ≤ path.length
      · simp [hm, hp] at h
      · exact Or.inr ⟨method, path, rfl, by omega, by omega⟩

theorem handle_request_index (fs : FileSystem) (client_socket : Int) (request : List Char)
    (h : scan_two request = Scanned.two "GET".toList "/".toList) :
    handle_request fs client_socket request =
      some [Event.printf "Request: GET /\n".toList, Event.send client_socket index_response] := by
  rw [handle_request_of_two fs client_socket h (by decide) (by decide)]
  rfl

theorem static_route_ne {path : List Char} (hpre : "/static/".toList <+: path) :
    path ≠ "/".toList ∧ path ≠ "/about".toList ∧ path ≠ "/api/status".toList := by
  refine ⟨?_, ?_, ?_⟩ <;> (intro h; subst h; revert hpre; decide)

theorem handle_request_static (fs : FileSystem) (client_socket : Int)
    (request path : List Char)
    (h : scan_two request = Scanned.two "GET".toList path)
    (hpre : "/static/".toList <+: path) (hlen : path.length ≤ 255) :
    handle_request fs client_socket request =
      some (Event.printf ("Request: GET ".toList ++ path ++ "\n".toList) ::
        send_file fs client_socket ('.' :: path)) := by
  rw [handle_request_of_two fs client_socket h (by decide) hlen]
  obtain ⟨h1, h2, h3⟩ := static_route_ne hpre
  rw [if_neg (not_not.2 rfl), if_neg h1, if_neg h2, if_neg h3, if_pos hpre]
  rfl

/-- What `handle_request` does is what the statements after the call of
`sscanf` do with the tokens, whenever the call keeps within the two arrays. -/
theorem handle_request_eq_after (fs : FileSystem) (client_socket : Int)
    (request : List Char) :
    handle_request fs client_socket request =
      (sscanf_s_s request 16 256).map (handle_request_after fs client_socket) := by
  unfold handle_request
  cases sscanf_s_s request 16 256 with
  | none => rfl
  | some scanned => cases scanned <;> rfl

/-- In a frame in which `method` lies directly after `path`, `handle_request`
does the same as in any other whenever the tokens fit the two arrays. -/
theorem handle_request_adjacent_of_fit (fs : FileSystem) (client_socket : Int)
    (request : List Char) (trace : List Event)
    (h : handle_request fs client_socket request = some trace) :
    handle_request_adjacent fs client_socket request = some trace := by
  rw [handle_request_eq_after] at h
  unfold handle_request_adjacent
  unfold sscanf_s_s at h
  unfold sscanf_adjacent
  cases hs : scan_two request with
  | eof => rw [hs] at h; exact h
  | one method =>
    rw [hs] at h
    simp only at h ⊢
    by_cases hm : 16 ≤ method.length
    · rw [if_pos hm] at h; cases h
    · rw [if_neg hm] at h ⊢; exact h
  | two method path =>
    rw [hs] at h
    simp only at h ⊢
    by_cases hm : 16 ≤ method.length
    · rw [if_pos hm] at h; cases h
    · by_cases hp : 256 ≤ path.length
      · rw [if_neg hm, if_pos hp] at h; cases h
      · have hp2 : ¬ (256 + 16 ≤ path.length) := by omega
        rw [if_neg hm, if_neg hp] at h
        rw [if_neg hm, if_neg hp2, if_neg hp]
        exact h

/-! ### Static files -/

/-- The response to a `GET` of a path under `/static/`, of at most 255 bytes,
whose file opens: the bytes sent are the status line `HTTP/1.1 200 OK`, the
resolved content type, the size that `lseek` returned in decimal,
`Connection: close`, a blank line and the bytes that the reads delivered; a
client reads them as just these three headers and those bytes as body. -/
theorem static_file_response_in_bounds (fs : FileSystem) (client_socket : Int)
    (request path content : List Char)
    (h : scan_two request = Scanned.two "GET".toList path)
    (hpre : "/static/".toList <+: path) (hlen : path.length ≤ 255)
    (hopen : fs.files (".".toList ++ path) = some content) :
    ∃ trace, handle_request fs client_socket request = some trace ∧
      sent client_socket trace =
        "HTTP/1.1 200 OK\r\n".toList ++
        "Content-Type: ".toList ++ get_mime_type (".".toList ++ path) ++ "\r\n".toList ++
        "Content-Length: ".toList ++
          fmt_d (file_calls fs (".".toList ++ path)).size ++ "\r\n".toList ++
        "Connection: close\r\n".toList ++
        "\r\n".toList ++ content ∧
      parseResponse (sent client_socket trace) =
        some ⟨"HTTP/1.1 200 OK".toList,
          ["Content-Type: ".toList ++ get_mime_type (".".toList ++ path),
           "Content-Length: ".toList ++ fmt_d (file_calls fs (".".toList ++ path)).size,
           "Connection: close".toList],
          content⟩ := by
  refine ⟨_, handle_request_static fs client_socket request path h hpre hlen, ?_, ?_⟩
  · rw [sent_printf]
    exact sent_send_file_of_open fs client_socket _ content hopen
  · rw [sent_printf]
    exact parse_send_file_of_open fs client_socket _ content hopen

/-- The response to a `GET` of a path under `/static/`, of at most 255 bytes,
that names a regular file read without error: the `Content-Length` header holds
the length of the file in decimal and the body is the file, byte for byte. -/
theorem static_file_response_regular (fs : FileSystem) (client_socket : Int)
    (request path content : List Char) (fd : Nat)
    (h : scan_two request = Scanned.two "GET".toList path)
    (hpre : "/static/".toList <+: path) (hlen : path.length ≤ 255)
    (hreg : file_calls fs (".".toList ++ path) = regular_file fd content)
    (hsize : content.length < 2 ^ 63) :
    ∃ trace, handle_request fs client_socket request = some trace ∧
      sent client_socket trace =
        "HTTP/1.1 200 OK\r\n".toList ++
        "Content-Type: ".toList ++ get_mime_type (".".toList ++ path) ++ "\r\n".toList ++
        "Content-Length: ".toList ++ (Nat.repr content.length).toList ++ "\r\n".toList ++
        "Connection: close\r\n".toList ++
        "\r\n".toList ++ content ∧
      parseResponse (sent client_socket trace) =
        some ⟨"HTTP/1.1 200 OK".toList,
          ["Content-Type: ".toList ++ get_mime_type (".".toList ++ path),
           "Content-Length: ".toList ++ (Nat.repr content.length).toList,
           "Connection: close".toList],
          content⟩ := by
  obtain ⟨hopen, hsz⟩ := files_regular_file fs _ content fd hreg hsize
  obtain ⟨trace, h1, h2, h3⟩ :=
    static_file_response_in_bounds fs client_socket request path content h hpre hlen hopen
  rw [hsz, fmt_d_natCast] at h2 h3
  exact ⟨trace, h1, h2, h3⟩

theorem static_file_response_regular_witness :
    scan_two "GET /static/a.txt HTTP/1.1\r\n\r\n".toList =
      Scanned.two "GET".toList "/static/a.txt".toList ∧
    ∃ trace, handle_request (oneFile "./static/a.txt".toList "hello".toList) 7
        "GET /static/a.txt HTTP/1.1\r\n\r\n".toList = some trace ∧
      sent 7 trace =
        "HTTP/1.1 200 OK\r\n".toList ++
        "Content-Type: ".toList ++ get_mime_type (".".toList ++ "/static/a.txt".toList) ++
          "\r\n".toList ++
        "Content-Length: ".toList ++ (Nat.repr "hello".toList.length).toList ++ "\r\n".toList ++
        "Connection: close\r\n".toList ++
        "\r\n".toList ++ "hello".toList ∧
      parseResponse (sent 7 trace) =
        some ⟨"HTTP/1.1 200 OK".toList,
          ["Content-Type: ".toList ++ get_mime_type (".".toList ++ "/static/a.txt".toList),
           "Content-Length: ".toList ++ (Nat.repr "hello".toList.length).toList,
           "Connection: close".toList],
          "hello".toList⟩ :=
  ⟨by decide, static_file_response_regular _ 7 _ _ "hello".toList 3 (by decide) (by decide)
    (by decide) (by decide) (by decide)⟩

/-- C2. The code at the failing input: a `GET` request whose path begins with
`/static/`, has 256 bytes and names a file that opens.  The specification gives the
200 response with the file; `sscanf` writes the path and its terminator, 257
bytes, into `path[256]`, so `handle_request` has no defined behaviour. -/
theorem static_file_long_path_overrun (client_socket : Int) :
    scan_two (get_request (long_static_path 'a')) =
        Scanned.two "GET".toList (long_static_path 'a') ∧
    "/static/".toList <+: long_static_path 'a' ∧
    (oneFile (".".toList ++ long_static_path 'a') "hello".toList).files
        (".".toList ++ long_static_path 'a') = some "hello".toList ∧
    handle_request (oneFile (".".toList ++ long_static_path 'a') "hello".toList)
        client_socket (get_request (long_static_path 'a')) = none := by
  refine ⟨by decide!, by decide!, by decide!, ?_⟩
  rfl

/-- The response to a `GET` of a path under `/static/`, of at most 255 bytes,
whose file does not open: the 404 response of `send_error` and nothing else. -/
theorem static_missing_response_in_bounds (fs : FileSystem) (client_socket : Int)
    (request path : List Char)
    (h : scan_two request = Scanned.two "GET".toList path)
    (hpre : "/static/".toList <+: path) (hlen : path.length ≤ 255)
    (hfail : fs.files (".".toList ++ path) = none) :
    ∃ trace, handle_request fs client_socket request = some trace ∧
      sent client_socket trace =
        sent client_socket (send_error client_socket 404 "Not Found".toList) ∧
      parseResponse (sent client_socket trace) =
        some ⟨"HTTP/1.1 404 Not Found".toList,
          ["Content-Type: text/html".toList, "Connection: close".toList],
          "<html><body><h1>404 Not Found</h1><p>Not Found</p></body></html>\n".toList⟩ := by
  have hs : sent client_socket
      (Event.printf ("Request: GET ".toList ++ path ++ "\n".toList) ::
        send_file fs client_socket ('.' :: path)) =
      sent client_socket (send_error client_socket 404 "Not Found".toList) := by
    rw [sent_printf, send_file_of_open_fails fs client_socket ('.' :: path) hfail]
    rfl
  refine ⟨_, handle_request_static fs client_socket request path h hpre hlen, hs, ?_⟩
  rw [hs]
  exact parse_error_404 client_socket

/-- C3. The code at the failing input: a `GET` request whose path begins with
`/static/`, has 256 bytes and names no file.  The specification gives the 404 response;
`sscanf` writes 257 bytes into `path[256]`, so `handle_request` has no defined
behaviour. -/
theorem static_missing_long_path_overrun (client_socket : Int) :
    scan_two (get_request (long_static_path 'b')) =
        Scanned.two "GET".toList (long_static_path 'b') ∧
    "/static/".toList <+: long_static_path 'b' ∧
    noFiles.files (".".toList ++ long_static_path 'b') = none ∧
    handle_request noFiles client_socket (get_request (long_static_path 'b')) = none := by
  refine ⟨by decide!, by decide!, rfl, ?_⟩
  rfl

/-! ### Other methods -/

/-- The response to a request whose method, of at most 15 bytes, is not `GET`
and whose path has at most 255 bytes: 501, and no file is opened. -/
theorem non_get_response_in_bounds (fs : FileSystem) (client_socket : Int)
    (request method path : List Char)
    (h : scan_two request = Scanned.two method path)
    (hget : method ≠ "GET".toList)
    (hm : method.length ≤ 15) (hp : path.length ≤ 255) :
    ∃ trace, handle_request fs client_socket request = some trace ∧
      parseResponse (sent client_socket trace) =
        some ⟨"HTTP/1.1 501 Not Implemented".toList,
          ["Content-Type: text/html".toList, "Connection: close".toList],
          "<html><body><h1>501 Not Implemented</h1><p>Not Implemented</p></body></html>\n".toList⟩ ∧
      opened trace = [] := by
  refine ⟨_, handle_request_of_two fs client_socket h hm hp, ?_, ?_⟩
  · rw [if_pos hget, sent_printf]
    exact parse_error_501 client_socket
  · rw [if_pos hget, opened_printf, opened_send_error]

/-- C4. The code at the failing input: the request `POST p HTTP/1.1` in which
the path `p`, under `/static/`, has 259 bytes, the last three of them `GET`.
A method token and a path token are matched and the method token is `POST`,
so the specification gives the 501 response and no `open`.  The code's `sscanf`
writes the path and its terminator, 260 bytes, into `path[256]`: no defined
behaviour.  In a frame in which `method[16]` lies directly after `path[256]`
the four bytes written past `path` replace `POST` in `method` by `GET`, and the
request is routed as a `GET`: `open` is called on the path with `.` prepended,
and the response is the 404 of `send_error` when that fails and the 200
response with the file when it succeeds. -/
theorem post_long_path_routed_as_get (client_socket : Int) :
    scan_two (post_request path_ending_in_get) =
        Scanned.two "POST".toList path_ending_in_get ∧
    "POST".toList ≠ "GET".toList ∧
    path_ending_in_get.length = 259 ∧
    handle_request noFiles client_socket (post_request path_ending_in_get) = none ∧
    sscanf_adjacent (post_request path_ending_in_get) =
        some (Scanned.two "GET".toList path_ending_in_get) ∧
    handle_request_adjacent noFiles client_socket (post_request path_ending_in_get) =
      some (Event.printf ("Request: GET ".toList ++ path_ending_in_get ++ "\n".toList) ::
        Event.open_ (".".toList ++ path_ending_in_get) (-1) ::
        send_error client_socket 404 "Not Found".toList) ∧
    parseResponse (sent client_socket
        (Event.printf ("Request: GET ".toList ++ path_ending_in_get ++ "\n".toList) ::
          Event.open_ (".".toList ++ path_ending_in_get) (-1) ::
          send_error client_socket 404 "Not Found".toList)) =
      some (error_response 404 "Not Found".toList) ∧
    handle_request_adjacent (oneFile (".".toList ++ path_ending_in_get) "hello".toList)
        client_socket (post_request path_ending_in_get) =
      some (Event.printf ("Request: GET ".toList ++ path_ending_in_get ++ "\n".toList) ::
        send_file (oneFile (".".toList ++ path_ending_in_get) "hello".toList)
          client_socket (".".toList ++ path_ending_in_get)) ∧
    opened (Event.printf ("Request: GET ".toList ++ path_ending_in_get ++ "\n".toList) ::
        send_file (oneFile (".".toList ++ path_ending_in_get) "hello".toList)
          client_socket (".".toList ++ path_ending_in_get)) =
      [".".toList ++ path_ending_in_get] ∧
    parseResponse (sent client_socket
        (Event.printf ("Request: GET ".toList ++ path_ending_in_get ++ "\n".toList) ::
          send_file (oneFile (".".toList ++ path_ending_in_get) "hello".toList)
            client_socket (".".toList ++ path_ending_in_get))) =
      some (file_response (".".toList ++ path_ending_in_get) 5 "hello".toList) := by
  refine ⟨by decide!, by decide, by decide!, rfl, by decide!, rfl, ?_, rfl, ?_, ?_⟩
  · rw [sent_printf]
    exact (parse_error_404 client_socket).trans (congrArg some error_response_404.symm)
  · rw [opened_printf, opened_send_file]
  · rw [sent_printf]
    exact parse_send_file_of_open _ client_socket _ "hello".toList (by decide!)

/-! ### Requests with fewer than two tokens -/

/-- C5. The code at the failing input: the buffer `GET`, CRLF, `/about`, CRLF,
CRLF, whose first line holds one token only.  The specification gives the 400
response; the conversion `%s` skips line breaks as it skips blanks, so `sscanf`
takes the path from the second line and the response is `HTTP/1.1 200 OK`, the
About page. -/
theorem first_line_one_token_not_400 :
    (scan_two (firstLine request_split_lines)).tokens.length < 2 ∧
    (response_of noFiles 7 request_split_lines).map Response.statusLine =
      some "HTTP/1.1 200 OK".toList := by
  decide

/-- Where the 400 response is sent: for every request buffer whose string,
taken as a whole, holds fewer than two whitespace-delimited tokens, the one
token if any having at most 15 bytes, `handle_request` responds with the
status line `HTTP/1.1 400 Bad Request`. -/
theorem bad_request_of_fewer_than_two_tokens (fs : FileSystem) (client_socket : Int)
    (request : List Char)
    (hcount : (scan_two request).tokens.length < 2)
    (hfit : ∀ t ∈ (scan_two request).tokens, t.length ≤ 15) :
    response_of fs client_socket request =
      some ⟨"HTTP/1.1 400 Bad Request".toList,
        ["Content-Type: text/html".toList, "Connection: close".toList],
        "<html><body><h1>400 Bad Request</h1><p>Bad Request</p></body></html>\n".toList⟩ := by
  have hreq : handle_request fs client_socket request =
      some (send_error client_socket 400 "Bad Request".toList) := by
    unfold handle_request sscanf_s_s
    cases hs : scan_two request with
    | eof => rfl
    | one method =>
      have hm : method.length ≤ 15 := hfit method (by simp [hs, Scanned.tokens])
      have h1 : ¬ (16 ≤ method.length) := by omega
      simp [h1]
    | two method path =>
      rw [hs] at hcount
      simp [Scanned.tokens] at hcount
  unfold response_of
  rw [hreq]
  exact parse_error_400 client_socket

theorem bad_request_of_fewer_than_two_tokens_witness :
    (scan_two "HELLO\r\n\r\n".toList).tokens.length < 2 ∧
    (∀ t ∈ (scan_two "HELLO\r\n\r\n".toList).tokens, t.length ≤ 15) ∧
    response_of noFiles 7 "HELLO\r\n\r\n".toList =
      some ⟨"HTTP/1.1 400 Bad Request".toList,
        ["Content-Type: text/html".toList, "Connection: close".toList],
        "<html><body><h1>400 Bad Request</h1><p>Bad Request</p></body></html>\n".toList⟩ :=
  ⟨by decide, by decide, bad_request_of_fewer_than_two_tokens noFiles 7 _ (by decide) (by decide)⟩

/-! ### Unknown routes -/

/-- The response to a `GET` of a path of at most 255 bytes that is no route:
404 with an HTML body that holds `404` and `Not Found`. -/
theorem unknown_route_response_in_bounds (fs : FileSystem) (client_socket : Int)
    (request path : List Char)
    (h : scan_two request = Scanned.two "GET".toList path)
    (h1 : path ≠ "/".toList) (h2 : path ≠ "/about".toList) (h3 : path ≠ "/api/status".toList)
    (hpre : ¬ ("/static/".toList <+: path)) (hlen : path.length ≤ 255) :
    ∃ trace r, handle_request fs client_socket request = some trace ∧
      parseResponse (sent client_socket trace) = some r ∧
      r.statusLine = "HTTP/1.1 404 Not Found".toList ∧
      "404".toList <:+: r.body ∧ "Not Found".toList <:+: r.body := by
  refine ⟨_, ⟨"HTTP/1.1 404 Not Found".toList,
      ["Content-Type: text/html".toList, "Connection: close".toList],
      "<html><body><h1>404 Not Found</h1><p>Not Found</p></body></html>\n".toList⟩,
    handle_request_of_two fs client_socket h (by decide) hlen, ?_, rfl, by decide, by decide⟩
  rw [if_neg (not_not.2 rfl), if_neg h1, if_neg h2, if_neg h3, if_neg hpre, sent_printf]
  exact parse_error_404 client_socket

/-- C6. The code at the failing input: a `GET` request whose path has 256
bytes, is none of the three inline routes and does not begin with `/static/`.
The specification gives the 404 response; `sscanf` writes 257 bytes into `path[256]`,
so `handle_request` has no defined behaviour. -/
theorem unknown_route_long_path_overrun (fs : FileSystem) (client_socket : Int) :
    scan_two (get_request long_unknown_path) =
        Scanned.two "GET".toList long_unknown_path ∧
    long_unknown_path ≠ "/".toList ∧ long_unknown_path ≠ "/about".toList ∧
    long_unknown_path ≠ "/api/status".toList ∧
    ¬ ("/static/".toList <+: long_unknown_path) ∧
    handle_request fs client_socket (get_request long_unknown_path) = none := by
  refine ⟨by decide!, by decide!, by decide!, by decide!, by decide!, ?_⟩
  rfl

/-! ### Inline pages -/

/-- C7. For every request whose parsed method is `GET` and parsed path is
exactly `/api/status`, the response a client reads has the status line
`HTTP/1.1 200 OK`, the headers `Content-Type: application/json` and
`Connection: close`, and a body that is exactly the JSON text
`\x7b"status": "ok", "message": "Server is running"\x7d` followed by one newline. -/
theorem api_status_response (fs : FileSystem) (client_socket : Int) (request : List Char)
    (h : scan_two request = Scanned.two "GET".toList "/api/status".toList) :
    response_of fs client_socket request =
      some ⟨"HTTP/1.1 200 OK".toList,
        ["Content-Type: application/json".toList, "Connection: close".toList],
        "\x7b\"status\": \"ok\", \"message\": \"Server is running\"\x7d\n".toList⟩ := by
  unfold response_of
  rw [handle_request_of_two fs client_socket h (by decide) (by decide)]
  simp only [sent, if_true]
  decide

theorem api_status_response_witness :
    scan_two "GET /api/status HTTP/1.1\r\nHost: localhost\r\n\r\n".toList =
        Scanned.two "GET".toList "/api/status".toList ∧
    response_of noFiles 7 "GET /api/status HTTP/1.1\r\nHost: localhost\r\n\r\n".toList =
      some ⟨"HTTP/1.1 200 OK".toList,
        ["Content-Type: application/json".toList, "Connection: close".toList],
        "\x7b\"status\": \"ok\", \"message\": \"Server is running\"\x7d\n".toList⟩ :=
  ⟨by decide, api_status_response noFiles 7 _ (by decide)⟩

/-- C8. For every request whose parsed method is `GET` and parsed path is
exactly `/`, the response has the status line `HTTP/1.1 200 OK`, the header
`Content-Type: text/html` (the only other header being `Connection: close`), a
body that contains `Welcome to C HTTP Server`, and the text `Content-Length`
occurs nowhere in the bytes sent. -/
theorem index_page_response (fs : FileSystem) (client_socket : Int) (request : List Char)
    (h : scan_two request = Scanned.two "GET".toList "/".toList) :
    ∃ trace r, handle_request fs client_socket request = some trace ∧
      parseResponse (sent client_socket trace) = some r ∧
      r.statusLine = "HTTP/1.1 200 OK".toList ∧
      r.headers = ["Content-Type: text/html".toList, "Connection: close".toList] ∧
      "Welcome to C HTTP Server".toList <:+: r.body ∧
      ¬ ("Content-Length".toList <:+: sent client_socket trace) := by
  refine ⟨_, ⟨"HTTP/1.1 200 OK".toList,
    ["Content-Type: text/html".toList, "Connection: close".toList], index_response.drop 63⟩,
    handle_request_index fs client_socket request h, ?_, rfl, rfl, ?_, ?_⟩
  · simp only [sent, if_true, List.append_nil]
    exact parse_index_response
  · decide!
  · simp only [sent, if_true, List.append_nil]
    decide!

theorem index_page_response_witness :
    scan_two "GET / HTTP/1.1\r\nHost: localhost\r\n\r\n".toList =
        Scanned.two "GET".toList "/".toList ∧
    ∃ trace r, handle_request noFiles 7 "GET / HTTP/1.1\r\nHost: localhost\r\n\r\n".toList =
        some trace ∧
      parseResponse (sent 7 trace) = some r ∧
      r.statusLine = "HTTP/1.1 200 OK".toList ∧
      r.headers = ["Content-Type: text/html".toList, "Connection: close".toList] ∧
      "Welcome to C HTTP Server".toList <:+: r.body ∧
      ¬ ("Content-Length".toList <:+: sent 7 trace) :=
  ⟨by decide, index_page_response noFiles 7 _ (by decide)⟩

/-! ### The path given to the file sender -/

/-- C9. For every `GET` request whose path begins with `/static/` and has at
most 255 bytes, `handle_request` hands `send_file` exactly the path prefixed
with `.`, and that string is the one path opened: nothing is sanitized, so `..`
segments reach `open` unchanged. -/
theorem static_path_unsanitized (fs : FileSystem) (client_socket : Int)
    (request path : List Char)
    (h : scan_two request = Scanned.two "GET".toList path)
    (hpre : "/static/".toList <+: path) (hlen : path.length ≤ 255) :
    ∃ trace, handle_request fs client_socket request = some trace ∧
      trace = Event.printf ("Request: GET ".toList ++ path ++ "\n".toList) ::
        send_file fs client_socket (".".toList ++ path) ∧
      opened trace = [".".toList ++ path] := by
  refine ⟨_, handle_request_static fs client_socket request path h hpre hlen, rfl, ?_⟩
  simp [opened, opened_send_file]

theorem static_path_unsanitized_witness :
    scan_two "GET /static/../secret.txt HTTP/1.1\r\n\r\n".toList =
        Scanned.two "GET".toList "/static/../secret.txt".toList ∧
    ∃ trace, handle_request (oneFile "./static/../secret.txt".toList "key".toList) 7
        "GET /static/../secret.txt HTTP/1.1\r\n\r\n".toList = some trace ∧
      trace = Event.printf ("Request: GET ".toList ++ "/static/../secret.txt".toList ++ "\n".toList) ::
        send_file (oneFile "./static/../secret.txt".toList "key".toList) 7
          (".".toList ++ "/static/../secret.txt".toList) ∧
      opened trace = ["./static/../secret.txt".toList] :=
  ⟨by decide, static_path_unsanitized _ 7 _ _ (by decide) (by decide) (by decide)⟩

/-! ### Headers of every response -/

/-- Whenever `handle_request` has defined behaviour (the two tokens fit
`method[16]` and `path[256]`), the response read by the client has a
`Content-Type` header and the header `Connection: close`. -/
theorem response_headers_in_bounds (fs : FileSystem) (client_socket : Int)
    (request : List Char) (trace : List Event)
    (h : handle_request fs client_socket request = some trace) :
    ∃ r, parseResponse (sent client_socket trace) = some r ∧
      (∃ line ∈ r.headers, "Content-Type: ".toList <+: line) ∧
      "Connection: close".toList ∈ r.headers := by
  have htext : ∀ r : Response,
      r.headers = ["Content-Type: text/html".toList, "Connection: close".toList] →
      (∃ line ∈ r.headers, "Content-Type: ".toList <+: line) ∧
      "Connection: close".toList ∈ r.headers := by
    intro r hr
    rw [hr]
    exact ⟨⟨_, List.mem_cons_self _ _, by decide⟩, by decide⟩
  rcases handle_request_some_cases fs client_socket request trace h with ⟨ht, _⟩ | ⟨m, p, hs, hm, hp⟩
  · subst ht
    exact ⟨_, parse_error_400 client_socket, htext _ rfl⟩
  · rw [handle_request_of_two fs client_socket hs hm hp, Option.some.injEq] at h
    subst h
    rw [sent_printf]
    split_ifs with h0 h1 h2 h3 h4
    · exact ⟨_, parse_error_501 client_socket, htext _ rfl⟩
    · simp only [sent, if_true, List.append_nil]
      exact ⟨_, parse_index_response, htext _ rfl⟩
    · simp only [sent, if_true, List.append_nil]
      exact ⟨_, parse_about_response, htext _ rfl⟩
    · simp only [sent, if_true, List.append_nil]
      exact ⟨_, parse_status_response, ⟨_, List.mem_cons_self _ _, by decide⟩, by decide⟩
    · cases hf : fs.files ('.' :: p) with
      | none =>
        rw [send_file_of_open_fails fs client_socket _ hf]
        exact ⟨_, parse_error_404 client_socket, htext _ rfl⟩
      | some content =>
        refine ⟨_, parse_send_file_of_open fs client_socket _ content hf,
          ⟨_, List.mem_cons_self _ _, List.prefix_append _ _⟩, ?_⟩
        simp [file_response]
    · exact ⟨_, parse_error_404 client_socket, htext _ rfl⟩

/-- The response read by the client in each case in which `handle_request` has
defined behaviour (the tokens fit `method[16]` and `path[256]`): fewer than two
tokens, a method other than `GET`, the three inline routes, a static file that
opens, a static file that does not, and any other path. -/
theorem response_cases_in_bounds (fs : FileSystem) (client_socket : Int)
    (request : List Char) (trace : List Event)
    (h : handle_request fs client_socket request = some trace) :
    ∃ r, parseResponse (sent client_socket trace) = some r ∧
      (((scan_two request).tokens.length < 2 ∧
          r = error_response 400 "Bad Request".toList) ∨
       (∃ method path, scan_two request = Scanned.two method path ∧
          method ≠ "GET".toList ∧ r = error_response 501 "Not Implemented".toList) ∨
       (∃ path, scan_two request = Scanned.two "GET".toList path ∧
          ((path = "/".toList ∧ parseResponse index_response = some r) ∨
           (path = "/about".toList ∧ parseResponse about_response = some r) ∨
           (path = "/api/status".toList ∧ parseResponse status_response = some r) ∨
           ("/static/".toList <+: path ∧ ∃ content,
              fs.files (".".toList ++ path) = some content ∧
              r = file_response (".".toList ++ path)
                (file_calls fs (".".toList ++ path)).size content) ∨
           ("/static/".toList <+: path ∧ fs.files (".".toList ++ path) = none ∧
              r = error_response 404 "Not Found".toList) ∨
           (path ≠ "/".toList ∧ path ≠ "/about".toList ∧ path ≠ "/api/status".toList ∧
              ¬ ("/static/".toList <+: path) ∧
              r = error_response 404 "Not Found".toList)))) := by
  rcases handle_request_some_cases fs client_socket request trace h with
    ⟨ht, hc⟩ | ⟨m, p, hs, hm, hp⟩
  · subst ht
    exact ⟨_, parse_error_400 client_socket, Or.inl ⟨hc, error_response_400.symm⟩⟩
  · rw [handle_request_of_two fs client_socket hs hm hp, Option.some.injEq] at h
    subst h
    rw [sent_printf]
    split_ifs with h0 h1 h2 h3 h4
    · exact ⟨_, parse_error_501 client_socket,
        Or.inr (Or.inl ⟨m, p, hs, h0, error_response_501.symm⟩)⟩
    · have hg : m = "GET".toList := not_not.1 h0
      subst hg
      simp only [sent, if_true, List.append_nil]
      exact ⟨_, parse_index_response, Or.inr (Or.inr ⟨p, hs, Or.inl ⟨h1, parse_index_response⟩⟩)⟩
    · have hg : m = "GET".toList := not_not.1 h0
      subst hg
      simp only [sent, if_true, List.append_nil]
      exact ⟨_, parse_about_response,
        Or.inr (Or.inr ⟨p, hs, Or.inr (Or.inl ⟨h2, parse_about_response⟩)⟩)⟩
    · have hg : m = "GET".toList := not_not.1 h0
      subst hg
      simp only [sent, if_true, List.append_nil]
      exact ⟨_, parse_status_response,
        Or.inr (Or.inr ⟨p, hs, Or.inr (Or.inr (Or.inl ⟨h3, parse_status_response⟩))⟩)⟩
    · have hg : m = "GET".toList := not_not.1 h0
      subst hg
      cases hf : fs.files ('.' :: p) with
      | none =>
        rw [send_file_of_open_fails fs client_socket _ hf]
        exact ⟨_, parse_error_404 client_socket, Or.inr (Or.inr ⟨p, hs,
          Or.inr (Or.inr (Or.inr (Or.inr (Or.inl ⟨h4, hf, error_response_404.symm⟩))))⟩)⟩
      | some content =>
        exact ⟨_, parse_send_file_of_open fs client_socket _ content hf,
          Or.inr (Or.inr ⟨p, hs, Or.inr (Or.inr (Or.inr (Or.inl ⟨h4, content, hf, rfl⟩)))⟩)⟩
    · have hg : m = "GET".toList := not_not.1 h0
      subst hg
      exact ⟨_, parse_error_404 client_socket, Or.inr (Or.inr ⟨p, hs,
        Or.inr (Or.inr (Or.inr (Or.inr (Or.inr ⟨h1, h2, h3, h4, error_response_404.symm⟩))))⟩)⟩

/-! ### The Content-Length header -/

theorem not_hasContentLength_of_headers (r : Response)
    (hr : r.headers = ["Content-Type: text/html".toList, "Connection: close".toList] ∨
      r.headers = ["Content-Type: application/json".toList, "Connection: close".toList]) :
    ¬ hasContentLength r := by
  unfold hasContentLength
  rcases hr with hr | hr <;> rw [hr] <;> decide

theorem hasContentLength_file_response (filepath : List Char) (size : Int)
    (content : List Char) :
    hasContentLength (file_response filepath size content) := by
  refine ⟨"Content-Length: ".toList ++ fmt_d size, ?_, ?_⟩
  · simp [file_response]
  · exact ⟨' ' :: fmt_d size, rfl⟩

/-- Whenever `handle_request` has defined behaviour (the tokens fit
`method[16]` and `path[256]`), the response has a `Content-Length` header
exactly when the request is a `GET` of a path under `/static/` whose file
opens. -/
theorem content_length_iff_in_bounds (fs : FileSystem) (client_socket : Int)
    (request : List Char) (trace : List Event)
    (h : handle_request fs client_socket request = some trace) :
    ∃ r, parseResponse (sent client_socket trace) = some r ∧
      (hasContentLength r ↔
        ∃ path content, scan_two request = Scanned.two "GET".toList path ∧
          "/static/".toList <+: path ∧ fs.files (".".toList ++ path) = some content) := by
  obtain ⟨r, hr, hcases⟩ := response_cases_in_bounds fs client_socket request trace h
  refine ⟨r, hr, ?_⟩
  have hno : ∀ (r : Response), ¬ hasContentLength r →
      ¬ (∃ path content, scan_two request = Scanned.two "GET".toList path ∧
          "/static/".toList <+: path ∧ fs.files (".".toList ++ path) = some content) →
      (hasContentLength r ↔
        ∃ path content, scan_two request = Scanned.two "GET".toList path ∧
          "/static/".toList <+: path ∧ fs.files (".".toList ++ path) = some content) :=
    fun r h1 h2 => ⟨fun h => absurd h h1, fun h => absurd h h2⟩
  rcases hcases with ⟨hc, rfl⟩ | ⟨m, p, hs, hm, rfl⟩ | ⟨p, hs, hroute⟩
  · apply hno
    · exact not_hasContentLength_of_headers _ (Or.inl rfl)
    · rintro ⟨p, c, hs, _, _⟩
      rw [hs] at hc
      simp [Scanned.tokens] at hc
  · apply hno
    · exact not_hasContentLength_of_headers _ (Or.inl rfl)
    · rintro ⟨p2, c, hs2, _, _⟩
      rw [hs] at hs2
      exact hm (Scanned.two.inj hs2).1
  · rcases hroute with ⟨hp, hpr⟩ | ⟨hp, hpr⟩ | ⟨hp, hpr⟩ | ⟨hpre, c, hf, rfl⟩ |
      ⟨hpre, hf, rfl⟩ | ⟨_, _, _, hpre, rfl⟩
    · apply hno
      · rw [parse_index_response, Option.some.injEq] at hpr
        subst hpr
        exact not_hasContentLength_of_headers _ (Or.inl rfl)
      · rintro ⟨p2, c, hs2, hpre, _⟩
        rw [hs] at hs2
        rw [← (Scanned.two.inj hs2).2, hp] at hpre
        revert hpre
        decide
    · apply hno
      · rw [parse_about_response, Option.some.injEq] at hpr
        subst hpr
        exact not_hasContentLength_of_headers _ (Or.inl rfl)
      · rintro ⟨p2, c, hs2, hpre, _⟩
        rw [hs] at hs2
        rw [← (Scanned.two.inj hs2).2, hp] at hpre
        revert hpre
        decide
    · apply hno
      · rw [parse_status_response, Option.some.injEq] at hpr
        subst hpr
        exact not_hasContentLength_of_headers _ (Or.inr rfl)
      · rintro ⟨p2, c, hs2, hpre, _⟩
        rw [hs] at hs2
        rw [← (Scanned.two.inj hs2).2, hp] at hpre
        revert hpre
        decide
    · exact ⟨fun _ => ⟨p, c, hs, hpre, hf⟩, fun _ => hasContentLength_file_response _ _ _⟩
    · apply hno
      · exact not_hasContentLength_of_headers _ (Or.inl rfl)
      · rintro ⟨p2, c, hs2, _, hf2⟩
        rw [hs] at hs2
        rw [← (Scanned.two.inj hs2).2, hf] at hf2
        cases hf2
    · apply hno
      · exact not_hasContentLength_of_headers _ (Or.inl rfl)
      · rintro ⟨p2, c, hs2, hpre2, _⟩
        rw [hs] at hs2
        rw [← (Scanned.two.inj hs2).2] at hpre2
        exact hpre hpre2

/-- When the formatted text fits the 4096-byte buffer `snprintf` cuts nothing:
the bytes sent are the status line, the two headers, a blank line and the
HTML body. -/
theorem sent_send_error_of_fits (client_socket status_code : Int) (message : List Char)
    (hfit : 2 * (fmt_d status_code).length + 3 * message.length + 102 ≤ BUFFER_SIZE - 1) :
    sent client_socket (send_error client_socket status_code message) =
      ("HTTP/1.1 ".toList ++ fmt_d status_code ++ " ".toList ++ message) ++
      joinLines ["Content-Type: text/html".toList, "Connection: close".toList] ++
      "\r\n\r\n".toList ++
      ("<html><body><h1>".toList ++ fmt_d status_code ++ " ".toList ++ message ++
        "</h1><p>".toList ++ message ++ "</p></body></html>\n".toList) := by
  rw [sent_send_error]
  unfold snprintf
  rw [List.take_of_length_le]
  · simp [joinLines]
  · simp only [List.length_append, BUFFER_SIZE] at hfit ⊢
    have e1 : "HTTP/1.1 ".toList.length = 9 := by decide
    have e2 : " ".toList.length = 1 := by decide
    have e3 : "\r\n".toList.length = 2 := by decide
    have e4 : "Content-Type: text/html\r\n".toList.length = 25 := by decide
    have e5 : "Connection: close\r\n".toList.length = 19 := by decide
    have e6 : "<html><body><h1>".toList.length = 16 := by decide
    have e7 : "</h1><p>".toList.length = 8 := by decide
    have e8 : "</p></body></html>\n".toList.length = 19 := by decide
    rw [e1, e2, e3, e4, e5, e6, e7, e8]
    omega

/-- The response of `send_error` as a client reads it, for a reason with no
carriage return and a text that fits the buffer. -/
theorem parse_send_error (client_socket status_code : Int) (message : List Char)
    (hfit : 2 * (fmt_d status_code).length + 3 * message.length + 102 ≤ BUFFER_SIZE - 1)
    (hcr : ∀ c ∈ message, c ≠ '\r') :
    parseResponse (sent client_socket (send_error client_socket status_code message)) =
      some (error_response status_code message) := by
  rw [sent_send_error_of_fits client_socket status_code message hfit]
  apply parseResponse_lines
  · intro c hc
    rcases List.mem_append.1 hc with h | h
    · rcases List.mem_append.1 h with h | h
      · rcases List.mem_append.1 h with h | h
        · exact (by decide : ∀ c ∈ "HTTP/1.1 ".toList, c ≠ '\r') c h
        · exact fmt_d_no_cr _ c h
      · exact (by decide : ∀ c ∈ " ".toList, c ≠ '\r') c h
    · exact hcr c h
  · decide
  · decide

/-! ### Elements of the HTML body -/

theorem afterFirst_append_of_not_mem (a : Char) (ns text rest : List Char)
    (ha : a ∉ text) :
    afterFirst (a :: ns) (text ++ rest) = afterFirst (a :: ns) rest := by
  induction text with
  | nil => rfl
  | cons c cs ih =>
    have hc : a ≠ c := fun h => ha (h ▸ List.mem_cons_self _ _)
    have hn : ¬ (a :: ns <+: c :: (cs ++ rest)) := by
      rw [List.cons_prefix_cons]
      exact fun h => hc h.1
    rw [List.cons_append, afterFirst, if_neg hn]
    exact ih (fun h => ha (List.mem_cons_of_mem _ h))

theorem beforeFirst_append_of_not_mem (a : Char) (ns text rest : List Char)
    (ha : a ∉ text) (hrest : a :: ns <+: rest) :
    beforeFirst (a :: ns) (text ++ rest) = some text := by
  induction text with
  | nil =>
    cases rest with
    | nil => exact absurd hrest (by simp)
    | cons r rs => rw [List.nil_append, beforeFirst, if_pos hrest]
  | cons c cs ih =>
    have hc : a ≠ c := fun h => ha (h ▸ List.mem_cons_self _ _)
    have hn : ¬ (a :: ns <+: c :: (cs ++ rest)) := by
      rw [List.cons_prefix_cons]
      exact fun h => hc h.1
    rw [List.cons_append, beforeFirst, if_neg hn, ih (fun h => ha (List.mem_cons_of_mem _ h))]

theorem afterFirst_h1 (rest : List Char) :
    afterFirst "<h1>".toList ("<html><body><h1>".toList ++ rest) = some rest := by
  simp [afterFirst]

theorem afterFirst_p (rest : List Char) :
    afterFirst "<p>".toList ("</h1><p>".toList ++ rest) = some rest := by
  simp [afterFirst]

theorem afterFirst_p_skip (rest : List Char) :
    afterFirst "<p>".toList ("<html><body><h1>".toList ++ rest) =
      afterFirst "<p>".toList rest := by
  simp [afterFirst]

theorem elementText_h1_error_body (status_code : Int) (message : List Char)
    (hlt : ∀ c ∈ message, c ≠ '<') :
    elementText "h1".toList (error_response status_code message).body =
      some (fmt_d status_code ++ " ".toList ++ message) := by
  have hT : '<' ∉ fmt_d status_code ++ " ".toList ++ message := by
    intro h
    rcases List.mem_append.1 h with h | h
    · rcases List.mem_append.1 h with h | h
      · exact fmt_d_no_lt _ _ h rfl
      · revert h; decide
    · exact hlt _ h rfl
  have e : (error_response status_code message).body =
      "<html><body><h1>".toList ++ ((fmt_d status_code ++ " ".toList ++ message) ++
        ("</h1><p>".toList ++ (message ++ "</p></body></html>\n".toList))) := by
    simp [error_response]
  have hn : "<".toList ++ "h1".toList ++ ">".toList = "<h1>".toList := rfl
  have hc : "</".toList ++ "h1".toList ++ ">".toList = '<' :: "/h1>".toList := rfl
  unfold elementText
  rw [e, hn, hc, afterFirst_h1]
  exact beforeFirst_append_of_not_mem '<' _ _ _ hT ⟨_, rfl⟩

theorem elementText_p_error_body (status_code : Int) (message : List Char)
    (hlt : ∀ c ∈ message, c ≠ '<') :
    elementText "p".toList (error_response status_code message).body = some message := by
  have hT : '<' ∉ fmt_d status_code ++ " ".toList ++ message := by
    intro h
    rcases List.mem_append.1 h with h | h
    · rcases List.mem_append.1 h with h | h
      · exact fmt_d_no_lt _ _ h rfl
      · revert h; decide
    · exact hlt _ h rfl
  have hm : '<' ∉ message := fun h => hlt _ h rfl
  have e : (error_response status_code message).body =
      "<html><body><h1>".toList ++ ((fmt_d status_code ++ " ".toList ++ message) ++
        ("</h1><p>".toList ++ (message ++ "</p></body></html>\n".toList))) := by
    simp [error_response]
  have hn : "<".toList ++ "p".toList ++ ">".toList = '<' :: "p>".toList := rfl
  have hc : "</".toList ++ "p".toList ++ ">".toList = '<' :: "/p>".toList := rfl
  unfold elementText
  rw [e, hn, hc]
  have h1 := afterFirst_p_skip ((fmt_d status_code ++ " ".toList ++ message) ++
        ("</h1><p>".toList ++ (message ++ "</p></body></html>\n".toList)))
  have h2 := afterFirst_append_of_not_mem '<' "p>".toList _
    ("</h1><p>".toList ++ (message ++ "</p></body></html>\n".toList)) hT
  have h3 := afterFirst_p (message ++ "</p></body></html>\n".toList)
  have h4 : afterFirst ('<' :: "p>".toList)
      ("<html><body><h1>".toList ++ ((fmt_d status_code ++ " ".toList ++ message) ++
        ("</h1><p>".toList ++ (message ++ "</p></body></html>\n".toList)))) =
      some (message ++ "</p></body></html>\n".toList) := by
    exact h1.trans (h2.trans h3)
  rw [h4]
  exact beforeFirst_append_of_not_mem '<' _ _ _ hm ⟨_, rfl⟩

/-- A reason too long for the buffer is cut by `snprintf`: with a reason of
2000 bytes the text has 6108 bytes, of which only the first 4095 are sent. -/
theorem send_error_cuts_long_reason :
    (sent 7 (send_error 7 404 (List.replicate 2000 'a'))).length = 4095 ∧
    2 * (fmt_d 404).length + 3 * (List.replicate 2000 'a').length + 102 = 6108 := by
  constructor
  · rw [sent_send_error]
    unfold snprintf
    rw [List.length_take]
    simp only [List.length_append, List.length_replicate, BUFFER_SIZE]
    decide
  · rw [List.length_replicate]
    decide

/-- C12, as stated, fails: in the 404 response the text of the `<p>` element
is `Not Found`, in which the status code `404` does not occur. -/
theorem error_body_p_without_status_code :
    ∃ r text, parseResponse (sent 7 (send_error 7 404 "Not Found".toList)) = some r ∧
      elementText "p".toList r.body = some text ∧
      "Not Found".toList <:+: text ∧ ¬ (fmt_d 404 <:+: text) :=
  ⟨_, "Not Found".toList, parse_error_404 7, by decide, by decide, by decide⟩

/-- C12, amended. For every status code and every reason phrase that holds no
`<` and no carriage return and is short enough for the text to fit the
4096-byte buffer, the HTML body sent by `send_error` embeds the reason twice
and the status code once: the text of the `<h1>` element is the status code, a
blank and the reason, and the text of the `<p>` element is the reason alone. -/
theorem send_error_body_elements (client_socket status_code : Int) (message : List Char)
    (hfit : 2 * (fmt_d status_code).length + 3 * message.length + 102 ≤ BUFFER_SIZE - 1)
    (hmsg : ∀ c ∈ message, c ≠ '\r' ∧ c ≠ '<') :
    ∃ r, parseResponse (sent client_socket (send_error client_socket status_code message)) =
        some r ∧
      elementText "h1".toList r.body = some (fmt_d status_code ++ " ".toList ++ message) ∧
      elementText "p".toList r.body = some message :=
  ⟨_, parse_send_error client_socket status_code message hfit (fun c hc => (hmsg c hc).1),
    elementText_h1_error_body status_code message (fun c hc => (hmsg c hc).2),
    elementText_p_error_body status_code message (fun c hc => (hmsg c hc).2)⟩

theorem send_error_body_elements_witness :
    (2 * (fmt_d 501).length + 3 * "Not Implemented".toList.length + 102 ≤ BUFFER_SIZE - 1) ∧
    (∀ c ∈ "Not Implemented".toList, c ≠ '\r' ∧ c ≠ '<') ∧
    ∃ r, parseResponse (sent 7 (send_error 7 501 "Not Implemented".toList)) = some r ∧
      elementText "h1".toList r.body = some (fmt_d 501 ++ " ".toList ++ "Not Implemented".toList) ∧
      elementText "p".toList r.body = some "Not Implemented".toList :=
  ⟨by decide, by decide, send_error_body_elements 7 501 _ (by decide) (by decide)⟩

/-! ### What follows the first line -/

theorem takeWhile_append_of_head {α : Type} (p : α → Bool) (l r : List α)
    (hr : r = [] ∨ ∃ c r2, r = c :: r2 ∧ p c = false) :
    (l ++ r).takeWhile p = l.takeWhile p := by
  induction l with
  | nil =>
    rcases hr with rfl | ⟨c, r2, rfl, hc⟩
    · rfl
    · simp [List.takeWhile, hc]
  | cons x xs ih =>
    cases hx : p x <;> simp [List.takeWhile, hx, ih]

theorem dropWhile_append_of_head {α : Type} (p : α → Bool) (l r : List α)
    (hr : r = [] ∨ ∃ c r2, r = c :: r2 ∧ p c = false) :
    (l ++ r).dropWhile p = l.dropWhile p ++ r := by
  induction l with
  | nil =>
    rcases hr with rfl | ⟨c, r2, rfl, hc⟩
    · rfl
    · simp [List.dropWhile, hc]
  | cons x xs ih =>
    cases hx : p x <;> simp [List.dropWhile, hx, ih]

theorem dropWhile_append_of_ne_nil {α : Type} (p : α → Bool) (l r : List α)
    (hl : l.dropWhile p ≠ []) :
    (l ++ r).dropWhile p = l.dropWhile p ++ r := by
  induction l with
  | nil => exact absurd rfl hl
  | cons x xs ih =>
    cases hx : p x with
    | false => simp [List.dropWhile, hx]
    | true =>
      have h2 : xs.dropWhile p ≠ [] := by simpa [List.dropWhile, hx] using hl
      simp [List.dropWhile, hx, ih h2]

theorem dropWhile_head {α : Type} (p : α → Bool) (l : List α) :
    l.dropWhile p = [] ∨ ∃ c r2, l.dropWhile p = c :: r2 ∧ p c = false := by
  induction l with
  | nil => exact Or.inl rfl
  | cons x xs ih =>
    cases hx : p x with
    | false => exact Or.inr ⟨x, xs, by simp [List.dropWhile, hx], hx⟩
    | true => simpa [List.dropWhile, hx] using ih

/-- A `%s` conversion that succeeds on a text gives the same token when more
text follows, provided that text is empty or begins with white space. -/
theorem scan_s_append (s r tok rest : List Char)
    (hr : r = [] ∨ ∃ c r2, r = c :: r2 ∧ isspace c = true)
    (h : scan_s s = some (tok, rest)) :
    scan_s (s ++ r) = some (tok, rest ++ r) := by
  unfold scan_s at h ⊢
  simp only at h ⊢
  by_cases hnil : List.dropWhile isspace s = []
  · rw [if_pos hnil] at h
    cases h
  · rw [if_neg hnil, Option.some.injEq, Prod.mk.injEq] at h
    have hr2 : r = [] ∨ ∃ c r2, r = c :: r2 ∧ (fun c => !isspace c) c = false := by
      rcases hr with h0 | ⟨c, r2, h1, h2⟩
      · exact Or.inl h0
      · exact Or.inr ⟨c, r2, h1, by simp [h2]⟩
    rw [dropWhile_append_of_ne_nil isspace s r hnil]
    have hne : List.dropWhile isspace s ++ r ≠ [] := by
      intro h0
      exact hnil (List.append_eq_nil.1 h0).1
    rw [if_neg hne, takeWhile_append_of_head _ _ r hr2, dropWhile_append_of_head _ _ r hr2,
      h.1, h.2]

theorem scan_two_eq_scan_tokens (request : List Char) :
    scan_two request = scan_tokens (cstr request) := rfl

theorem scan_tokens_append (s r method path : List Char)
    (hr : r = [] ∨ ∃ c r2, r = c :: r2 ∧ isspace c = true)
    (h : scan_tokens s = Scanned.two method path) :
    scan_tokens (s ++ r) = Scanned.two method path := by
  unfold scan_tokens at h
  cases hs1 : scan_s s with
  | none => rw [hs1] at h; cases h
  | some tr =>
    obtain ⟨tok, rest⟩ := tr
    rw [hs1] at h
    simp only at h
    cases hs2 : scan_s (rest.dropWhile isspace) with
    | none => rw [hs2] at h; cases h
    | some pr =>
      obtain ⟨tok2, rest2⟩ := pr
      rw [hs2] at h
      simp only [Scanned.two.injEq] at h
      have hD : rest.dropWhile isspace ≠ [] := by
        intro h0
        rw [h0] at hs2
        cases hs2
      unfold scan_tokens
      rw [scan_s_append s r tok rest hr hs1]
      simp only
      rw [dropWhile_append_of_ne_nil isspace rest r hD,
        scan_s_append _ r tok2 rest2 hr hs2]
      simp only [h.1, h.2]

theorem mem_takeWhile_true {α : Type} (p : α → Bool) (l : List α) (x : α)
    (hx : x ∈ l.takeWhile p) : p x = true := by
  induction l with
  | nil => simp at hx
  | cons y ys ih =>
    cases hy : p y with
    | false => simp [List.takeWhile, hy] at hx
    | true =>
      simp only [List.takeWhile, hy, List.mem_cons] at hx
      rcases hx with rfl | hx
      · exact hy
      · exact ih hx

theorem cstr_firstLine (buffer : List Char) : cstr (firstLine buffer) = firstLine buffer := by
  unfold cstr firstLine
  rw [List.takeWhile_eq_self_iff]
  intro c hc
  have hc2 : c ∈ List.takeWhile (fun c => c != '\x00') buffer :=
    (List.takeWhile_prefix _).subset hc
  exact mem_takeWhile_true (fun c => c != '\x00') buffer c hc2

theorem cstr_eq_firstLine_append (buffer : List Char) :
    ∃ r, cstr buffer = firstLine buffer ++ r ∧
      (r = [] ∨ ∃ c r2, r = c :: r2 ∧ isspace c = true) := by
  refine ⟨(cstr buffer).dropWhile (fun c => c != '\n'), ?_, ?_⟩
  · unfold firstLine
    exact (List.takeWhile_append_dropWhile _ _).symm
  · rcases dropWhile_head (fun c => c != '\n') (cstr buffer) with h | ⟨c, r2, h1, h2⟩
    · exact Or.inl h
    · refine Or.inr ⟨c, r2, h1, ?_⟩
      have hc : c = '\n' := by simpa using h2
      rw [hc]
      decide

/-- When the first line of a request holds two tokens, they are the tokens
that `sscanf` matches in the whole request. -/
theorem scan_two_of_firstLine (request method path : List Char)
    (h : scan_two (firstLine request) = Scanned.two method path) :
    scan_two request = Scanned.two method path := by
  rw [scan_two_eq_scan_tokens, cstr_firstLine] at h
  obtain ⟨r, hr, hcond⟩ := cstr_eq_firstLine_append request
  rw [scan_two_eq_scan_tokens, hr]
  exact scan_tokens_append _ r method path hcond h

/-- The behaviour of `handle_request` depends on the request only through the
tokens matched by `sscanf`. -/
theorem handle_request_congr (fs : FileSystem) (client_socket : Int) (a b : List Char)
    (h : scan_two a = scan_two b) :
    handle_request fs client_socket a = handle_request fs client_socket b := by
  unfold handle_request sscanf_s_s
  rw [h]

/-- C13. The code at the failing input: two request buffers with the same
first line, `GET`, whose second lines hold `/about` and `/`.  The specification
gives the same response to both; the conversion `%s` skips line breaks, so
`sscanf` takes the path from the second line and the responses differ, the
About page for the one and the index page for the other. -/
theorem same_first_line_different_response :
    firstLine request_split_lines = firstLine request_split_lines_index ∧
    response_of noFiles 7 request_split_lines ≠
      response_of noFiles 7 request_split_lines_index := by
  decide!

/-- Where what follows the first line is ignored: for every two request
buffers that have the same first line, that line holding at least two
whitespace-delimited tokens, and for the same file-system state,
`handle_request` matches the same method and path and behaves the same, so
sends the same response. -/
theorem same_first_line_same_response (fs : FileSystem) (client_socket : Int)
    (a b : List Char) (hline : firstLine a = firstLine b)
    (htwo : (scan_two (firstLine a)).tokens.length = 2) :
    scan_two a = scan_two b ∧
    handle_request fs client_socket a = handle_request fs client_socket b ∧
    response_of fs client_socket a = response_of fs client_socket b := by
  have hs : scan_two a = scan_two b := by
    cases hfa : scan_two (firstLine a) with
    | eof => rw [hfa] at htwo; simp [Scanned.tokens] at htwo
    | one m => rw [hfa] at htwo; simp [Scanned.tokens] at htwo
    | two m p =>
      rw [scan_two_of_firstLine a m p hfa, scan_two_of_firstLine b m p (hline ▸ hfa)]
  have hh := handle_request_congr fs client_socket a b hs
  refine ⟨hs, hh, ?_⟩
  unfold response_of
  rw [hh]

theorem same_first_line_same_response_witness :
    firstLine "GET /about HTTP/1.1\r\nHost: a\r\n\r\n".toList =
      firstLine "GET /about HTTP/1.1\r\nCookie: b\r\n\r\nbody".toList ∧
    (scan_two (firstLine "GET /about HTTP/1.1\r\nHost: a\r\n\r\n".toList)).tokens.length = 2 ∧
    (scan_two "GET /about HTTP/1.1\r\nHost: a\r\n\r\n".toList =
      scan_two "GET /about HTTP/1.1\r\nCookie: b\r\n\r\nbody".toList ∧
    handle_request noFiles 7 "GET /about HTTP/1.1\r\nHost: a\r\n\r\n".toList =
      handle_request noFiles 7 "GET /about HTTP/1.1\r\nCookie: b\r\n\r\nbody".toList ∧
    response_of noFiles 7 "GET /about HTTP/1.1\r\nHost: a\r\n\r\n".toList =
      response_of noFiles 7 "GET /about HTTP/1.1\r\nCookie: b\r\n\r\nbody".toList) :=
  ⟨by decide, by decide, same_first_line_same_response noFiles 7 _ _ (by decide) (by decide)⟩

/-! ### Connection handler -/

theorem socket_read_length_le (incoming : Incoming) (count : Nat) :
    (socket_read incoming count).2.length ≤ count := by
  cases incoming with
  | error => simp [socket_read]
  | data bytes => simp [socket_read, List.length_take]

theorem socket_read_pos (incoming : Incoming) (count : Nat)
    (h : 0 < (socket_read incoming count).1) :
    (socket_read incoming count).1 = ((socket_read incoming count).2.length : Nat) := by
  cases incoming with
  | error => simp [socket_read] at h
  | data bytes => rfl

theorem cstr_zero_filled (stored : List Char) : cstr (zero_filled stored) = cstr stored := by
  unfold zero_filled cstr
  apply takeWhile_append_of_head
  cases hn : BUFFER_SIZE - stored.length with
  | zero => exact Or.inl rfl
  | succ n => exact Or.inr ⟨'\x00', List.replicate n '\x00', rfl, by decide⟩

theorem cstr_length_le (buffer : List Char) : (cstr buffer).length ≤ buffer.length :=
  (List.takeWhile_prefix _).length_le

/-- The two branches of `handle_client`, whatever stands for the router: after
a read that returns zero or a negative count the failure is reported and the
connection closed; otherwise the router is invoked on the buffer and the
connection closed after it has returned. -/
theorem handle_client_with_eq (router : Int → List Char → Option (List Event))
    (client_socket : Int) (incoming : Incoming) :
    handle_client_with router client_socket incoming =
      if (socket_read incoming (BUFFER_SIZE - 1)).1 ≤ 0 then
        some [Event.read client_socket (BUFFER_SIZE - 1)
            (socket_read incoming (BUFFER_SIZE - 1)).1,
          Event.perror "read failed".toList,
          Event.close client_socket]
      else
        (router client_socket (zero_filled (socket_read incoming (BUFFER_SIZE - 1)).2)).map
          (fun trace => Event.read client_socket (BUFFER_SIZE - 1)
              (socket_read incoming (BUFFER_SIZE - 1)).1 ::
            (trace ++ [Event.close client_socket])) := by
  unfold handle_client_with
  by_cases h : (socket_read incoming (BUFFER_SIZE - 1)).1 ≤ 0
  · simp only [h, if_true]
  · simp only [h, if_false]
    cases router client_socket (zero_filled (socket_read incoming (BUFFER_SIZE - 1)).2) <;> rfl

/-- The count that the read returns is at most the count asked for, and the
bytes stored are as many as the count returned says. -/
theorem socket_read_bounds (incoming : Incoming) (count : Nat) :
    (socket_read incoming count).1 ≤ (count : Int) ∧
    ∀ i : Nat, (socket_read incoming count).1 ≤ (i : Int) →
      (socket_read incoming count).2.length ≤ i := by
  cases incoming with
  | error =>
    refine ⟨?_, fun i _ => ?_⟩
    · simp only [socket_read]
      omega
    · simp [socket_read]
  | data bytes =>
    refine ⟨?_, fun i hi => ?_⟩
    · have h : (bytes.take count).length ≤ count := by
        rw [List.length_take]
        exact min_le_left _ _
      simp only [socket_read]
      exact_mod_cast h
    · simp only [socket_read] at hi ⊢
      exact_mod_cast hi

/-- C19. For every result of the single read in `handle_client`: the count
`bytes_read` that the read returns is at most 4095 (`BUFFER_SIZE - 1`, the
count that `handle_client` asks for), the buffer has 4096 cells, and every
cell from the cell `bytes_read` on, the last cell among them, still holds the
NUL of the initialisation.  So the buffer that `handle_client` hands to the
router, whatever the router is and in particular when it is `handle_request`,
holds a NUL within its bounds, and the request string it denotes has at most
4095 characters. -/
theorem handle_client_buffer_terminated (client_socket : Int) (incoming : Incoming) :
    ∃ (bytes_read : Int) (buffer : List Char),
      bytes_read ≤ 4095 ∧
      buffer.length = 4096 ∧
      (∀ i : Nat, bytes_read ≤ (i : Int) → i < 4096 → buffer[i]? = some '\x00') ∧
      buffer[4095]? = some '\x00' ∧
      (cstr buffer).length ≤ 4095 ∧
      (∀ router : Int → List Char → Option (List Event),
        handle_client_with router client_socket incoming =
          if bytes_read ≤ 0 then
            some [Event.read client_socket 4095 bytes_read,
              Event.perror "read failed".toList,
              Event.close client_socket]
          else
            (router client_socket buffer).map
              (fun trace => Event.read client_socket 4095 bytes_read ::
                (trace ++ [Event.close client_socket]))) ∧
      (∀ fs : FileSystem,
        handle_client fs client_socket incoming =
          if bytes_read ≤ 0 then
            some [Event.read client_socket 4095 bytes_read,
              Event.perror "read failed".toList,
              Event.close client_socket]
          else
            (handle_request fs client_socket buffer).map
              (fun trace => Event.read client_socket 4095 bytes_read ::
                (trace ++ [Event.close client_socket]))) := by
  have hlen : (socket_read incoming (BUFFER_SIZE - 1)).2.length ≤ 4095 :=
    socket_read_length_le incoming (BUFFER_SIZE - 1)
  obtain ⟨hret, hcells⟩ := socket_read_bounds incoming (BUFFER_SIZE - 1)
  have hnul : ∀ i : Nat, (socket_read incoming (BUFFER_SIZE - 1)).1 ≤ (i : Int) → i < 4096 →
      (zero_filled (socket_read incoming (BUFFER_SIZE - 1)).2)[i]? = some '\x00' := by
    intro i hi h4096
    have hi2 := hcells i hi
    generalize (socket_read incoming (BUFFER_SIZE - 1)).2 = stored at hlen hi2
    unfold zero_filled
    rw [List.getElem?_append_right hi2, List.getElem?_replicate]
    simp only [BUFFER_SIZE]
    rw [if_pos (by omega)]
  refine ⟨(socket_read incoming (BUFFER_SIZE - 1)).1,
    zero_filled (socket_read incoming (BUFFER_SIZE - 1)).2, hret, ?_, hnul, ?_, ?_,
    fun router => handle_client_with_eq router client_socket incoming,
    fun fs => handle_client_with_eq (handle_request fs) client_socket incoming⟩
  · generalize (socket_read incoming (BUFFER_SIZE - 1)).2 = stored at hlen
    simp only [zero_filled, List.length_append, List.length_replicate, BUFFER_SIZE]
    omega
  · exact hnul 4095 hret (by decide)
  · rw [cstr_zero_filled]
    exact le_trans (cstr_length_le _) hlen

theorem handle_client_buffer_terminated_witness :
    ∃ (bytes_read : Int) (buffer : List Char),
      bytes_read ≤ 4095 ∧
      buffer.length = 4096 ∧
      (∀ i : Nat, bytes_read ≤ (i : Int) → i < 4096 → buffer[i]? = some '\x00') ∧
      buffer[4095]? = some '\x00' ∧
      (cstr buffer).length ≤ 4095 ∧
      (∀ router : Int → List Char → Option (List Event),
        handle_client_with router 7 (Incoming.data (List.replicate 5000 'a')) =
          if bytes_read ≤ 0 then
            some [Event.read 7 4095 bytes_read,
              Event.perror "read failed".toList,
              Event.close 7]
          else
            (router 7 buffer).map
              (fun trace => Event.read 7 4095 bytes_read ::
                (trace ++ [Event.close 7]))) ∧
      (∀ fs : FileSystem,
        handle_client fs 7 (Incoming.data (List.replicate 5000 'a')) =
          if bytes_read ≤ 0 then
            some [Event.read 7 4095 bytes_read,
              Event.perror "read failed".toList,
              Event.close 7]
          else
            (handle_request fs 7 buffer).map
              (fun trace => Event.read 7 4095 bytes_read ::
                (trace ++ [Event.close 7]))) :=
  handle_client_buffer_terminated 7 (Incoming.data (List.replicate 5000 'a'))

/-- The router reads nothing from the connection and does not close it: the
only descriptor it reads and closes is that of the file it serves, which is
another one than that of the connection. -/
theorem handle_request_leaves_socket (fs : FileSystem) (client_socket : Int)
    (request : List Char) (trace : List Event)
    (hfd : ∀ p, (file_calls fs p).fd ≠ client_socket)
    (h : handle_request fs client_socket request = some trace) :
    reads_of client_socket trace = [] ∧ client_socket ∉ closes trace := by
  rcases handle_request_some_cases fs client_socket request trace h with
    ⟨ht, _⟩ | ⟨m, p, hs, hm, hp⟩
  · subst ht
    simp [reads_of_send_error, closes_send_error]
  · rw [handle_request_of_two fs client_socket hs hm hp, Option.some.injEq] at h
    subst h
    have hsf : ∀ path, client_socket ∉ closes (send_file fs client_socket path) := by
      intro path
      rw [closes_send_file]
      split
      · simp
      · simpa using fun h => hfd path h.symm
    have hrd : ∀ path, reads_of client_socket (send_file fs client_socket path) = [] :=
      fun path => reads_of_send_file fs client_socket client_socket path (hfd path)
    split_ifs <;>
      simp [reads_of, closes, reads_of_send_error, closes_send_error, hrd, hsf]

/-- Where the router has defined behaviour, `handle_client` performs one read.
When the read returns zero or a negative count it reports the failure and
closes the connection, without invoking the router and without sending
anything.  Otherwise it invokes the router once, on the buffer, and closes the
connection after the router has returned.  A trace of `handle_client` holds
exactly one read of the connection and exactly one close of it, the close being
the last call (no `open` returns the descriptor of the connection). -/
theorem handle_client_one_read_one_close (fs : FileSystem) (client_socket : Int)
    (incoming : Incoming) :
    ((socket_read incoming (BUFFER_SIZE - 1)).1 ≤ 0 →
      handle_client fs client_socket incoming =
        some [Event.read client_socket (BUFFER_SIZE - 1)
            (socket_read incoming (BUFFER_SIZE - 1)).1,
          Event.perror "read failed".toList,
          Event.close client_socket]) ∧
    (0 < (socket_read incoming (BUFFER_SIZE - 1)).1 →
      handle_client fs client_socket incoming =
        (handle_request fs client_socket
          (zero_filled (socket_read incoming (BUFFER_SIZE - 1)).2)).map
          (fun trace => Event.read client_socket (BUFFER_SIZE - 1)
              (socket_read incoming (BUFFER_SIZE - 1)).1 ::
            (trace ++ [Event.close client_socket]))) ∧
    (∀ trace, (∀ p, (file_calls fs p).fd ≠ client_socket) →
      handle_client fs client_socket incoming = some trace →
      (reads_of client_socket trace).length = 1 ∧
      (closes trace).count client_socket = 1 ∧
      trace.getLast? = some (Event.close client_socket) ∧
      ((socket_read incoming (BUFFER_SIZE - 1)).1 ≤ 0 →
        sent client_socket trace = [] ∧ opened trace = [])) := by
  have hneg : (socket_read incoming (BUFFER_SIZE - 1)).1 ≤ 0 →
      handle_client fs client_socket incoming =
        some [Event.read client_socket (BUFFER_SIZE - 1)
            (socket_read incoming (BUFFER_SIZE - 1)).1,
          Event.perror "read failed".toList,
          Event.close client_socket] := by
    intro h
    unfold handle_client handle_client_with
    simp only [h, if_true]
  have hpos : 0 < (socket_read incoming (BUFFER_SIZE - 1)).1 →
      handle_client fs client_socket incoming =
        (handle_request fs client_socket
          (zero_filled (socket_read incoming (BUFFER_SIZE - 1)).2)).map
          (fun trace => Event.read client_socket (BUFFER_SIZE - 1)
              (socket_read incoming (BUFFER_SIZE - 1)).1 ::
            (trace ++ [Event.close client_socket])) := by
    intro h
    unfold handle_client handle_client_with
    simp only [not_le.2 h, if_false]
    cases handle_request fs client_socket
      (zero_filled (socket_read incoming (BUFFER_SIZE - 1)).2) <;> rfl
  refine ⟨hneg, hpos, ?_⟩
  intro trace hfd h
  by_cases hret : (socket_read incoming (BUFFER_SIZE - 1)).1 ≤ 0
  · rw [hneg hret, Option.some.injEq] at h
    subst h
    simp [reads_of, closes, sent, opened]
  · rw [hpos (not_le.1 hret)] at h
    cases hr : handle_request fs client_socket
        (zero_filled (socket_read incoming (BUFFER_SIZE - 1)).2) with
    | none => rw [hr] at h; cases h
    | some t =>
      rw [hr, Option.map_some', Option.some.injEq] at h
      subst h
      obtain ⟨h1, h2⟩ := handle_request_leaves_socket fs client_socket _ t hfd hr
      refine ⟨?_, ?_, ?_, fun h0 => absurd h0 hret⟩
      · simp [reads_of, reads_of_append, h1]
      · simp [closes, closes_append, List.count_append, List.count_eq_zero_of_not_mem h2]
      · rw [← List.cons_append, List.getLast?_append]
        rfl

theorem handle_client_one_read_one_close_witness :
    handle_client noFiles 7 Incoming.error =
      some [Event.read 7 4095 (-1), Event.perror "read failed".toList, Event.close 7] ∧
    ∃ trace, handle_client noFiles 7 (Incoming.data "GET /about HTTP/1.1\r\n\r\n".toList) =
        some trace ∧
      (reads_of 7 trace).length = 1 ∧ (closes trace).count 7 = 1 ∧
      trace.getLast? = some (Event.close 7) :=
  ⟨(handle_client_one_read_one_close noFiles 7 Incoming.error).1 (by decide),
   _, rfl,
   (((handle_client_one_read_one_close noFiles 7
      (Incoming.data "GET /about HTTP/1.1\r\n\r\n".toList)).2.2 _
      (fun _ => by show (-1 : Int) ≠ 7; decide) rfl).1),
   (((handle_client_one_read_one_close noFiles 7
      (Incoming.data "GET /about HTTP/1.1\r\n\r\n".toList)).2.2 _
      (fun _ => by show (-1 : Int) ≠ 7; decide) rfl).2.1),
   (((handle_client_one_read_one_close noFiles 7
      (Incoming.data "GET /about HTTP/1.1\r\n\r\n".toList)).2.2 _
      (fun _ => by show (-1 : Int) ≠ 7; decide) rfl).2.2.1)⟩

/-- C14. The code at the failing input: a connection on which a `GET` request
arrives whose path, under `/static/`, has 600 bytes.  The single read returns
617, a positive count, so the router is invoked on the buffer.  There `sscanf`
writes 601 bytes into `path[256]`, past the end of `method[16]` as well, so the
router has no defined behaviour, in whatever order the two arrays lie: there is
no trace of `handle_client` in which the router returns and the connection is
closed. -/
theorem handle_client_long_path_no_close (fs : FileSystem) (client_socket : Int) :
    socket_read (Incoming.data (get_request (deep_static_path 'g' 'h' 'i')))
        (BUFFER_SIZE - 1) = (617, get_request (deep_static_path 'g' 'h' 'i')) ∧
    scan_two (zero_filled (get_request (deep_static_path 'g' 'h' 'i'))) =
        Scanned.two "GET".toList (deep_static_path 'g' 'h' 'i') ∧
    (deep_static_path 'g' 'h' 'i').length = 600 ∧
    handle_request fs client_socket
        (zero_filled (get_request (deep_static_path 'g' 'h' 'i'))) = none ∧
    handle_request_adjacent fs client_socket
        (zero_filled (get_request (deep_static_path 'g' 'h' 'i'))) = none ∧
    handle_client fs client_socket
        (Incoming.data (get_request (deep_static_path 'g' 'h' 'i'))) = none := by
  refine ⟨by decide!, by decide!, by decide!, ?_, ?_, ?_⟩ <;> rfl

/-! ### The parsed fields -/

theorem scan_s_token (s tok rest : List Char) (h : scan_s s = some (tok, rest)) :
    tok ≠ [] ∧ ∀ c ∈ tok, isspace c = false := by
  unfold scan_s at h
  simp only at h
  by_cases hnil : List.dropWhile isspace s = []
  · rw [if_pos hnil] at h
    cases h
  · rw [if_neg hnil, Option.some.injEq, Prod.mk.injEq] at h
    obtain ⟨htok, _⟩ := h
    constructor
    · rcases dropWhile_head isspace s with h0 | ⟨c, r2, h1, h2⟩
      · exact absurd h0 hnil
      · rw [← htok, h1]
        simp [List.takeWhile, h2]
    · intro c hc
      rw [← htok] at hc
      have := mem_takeWhile_true (fun c => !isspace c) _ c hc
      simpa using this

theorem scan_two_tokens (request method path : List Char)
    (h : scan_two request = Scanned.two method path) :
    (method ≠ [] ∧ ∀ c ∈ method, isspace c = false) ∧
    (path ≠ [] ∧ ∀ c ∈ path, isspace c = false) := by
  unfold scan_two at h
  cases hs1 : scan_s (cstr request) with
  | none => rw [hs1] at h; cases h
  | some tr =>
    obtain ⟨tok, rest⟩ := tr
    rw [hs1] at h
    simp only at h
    cases hs2 : scan_s (rest.dropWhile isspace) with
    | none => rw [hs2] at h; cases h
    | some pr =>
      obtain ⟨tok2, rest2⟩ := pr
      rw [hs2] at h
      simp only [Scanned.two.injEq] at h
      rw [← h.1, ← h.2]
      exact ⟨scan_s_token _ _ _ hs1, scan_s_token _ _ _ hs2⟩

theorem sscanf_eq_some_two (request method path : List Char)
    (h : sscanf_s_s request 16 256 = some (Scanned.two method path)) :
    scan_two request = Scanned.two method path ∧
      method.length ≤ 15 ∧ path.length ≤ 255 := by
  unfold sscanf_s_s at h
  cases hs : scan_two request with
  | eof => rw [hs] at h; cases h
  | one m =>
    rw [hs] at h
    simp only at h
    split at h <;> cases h
  | two m p =>
    rw [hs] at h
    simp only at h
    by_cases hm : 16 ≤ m.length
    · rw [if_pos hm] at h; cases h
    · by_cases hp : 256 ≤ p.length
      · rw [if_neg hm, if_pos hp] at h; cases h
      · rw [if_neg hm, if_neg hp, Option.some.injEq, Scanned.two.injEq] at h
        rw [← h.1, ← h.2]
        exact ⟨rfl, by omega, by omega⟩

/-- Where `sscanf` keeps within the two arrays: when it stores two tokens,
both are non-empty and hold no white space; when fewer than two tokens can be
matched it does not store two, and all that `handle_request` does, where its
behaviour is defined, is to send the 400 response, and no file is opened. -/
theorem parsed_fields_nonempty (request : List Char) :
    (∀ method path, sscanf_s_s request 16 256 = some (Scanned.two method path) →
      (1 ≤ method.length ∧ ∀ c ∈ method, isspace c = false) ∧
      (1 ≤ path.length ∧ ∀ c ∈ path, isspace c = false)) ∧
    ((scan_two request).tokens.length < 2 →
      (∀ method path, sscanf_s_s request 16 256 ≠ some (Scanned.two method path)) ∧
      ∀ (fs : FileSystem) (client_socket : Int) (trace : List Event),
        handle_request fs client_socket request = some trace →
        trace = send_error client_socket 400 "Bad Request".toList ∧ opened trace = []) := by
  constructor
  · intro method path h
    obtain ⟨⟨h1, h2⟩, ⟨h3, h4⟩⟩ := scan_two_tokens request method path
      (sscanf_eq_some_two request method path h).1
    exact ⟨⟨List.length_pos.2 h1, h2⟩, ⟨List.length_pos.2 h3, h4⟩⟩
  · intro hlt
    constructor
    · intro method path h
      rw [(sscanf_eq_some_two request method path h).1] at hlt
      simp [Scanned.tokens] at hlt
    · intro fs client_socket trace h
      rcases handle_request_some_cases fs client_socket request trace h with
        ⟨ht, _⟩ | ⟨m, p, hs, _, _⟩
      · exact ⟨ht, by rw [ht, opened_send_error]⟩
      · rw [hs] at hlt
        simp [Scanned.tokens] at hlt

theorem parsed_fields_nonempty_witness :
    sscanf_s_s "GET /index.html HTTP/1.1\r\n\r\n".toList 16 256 =
      some (Scanned.two "GET".toList "/index.html".toList) ∧
    ((1 ≤ "GET".toList.length ∧ ∀ c ∈ "GET".toList, isspace c = false) ∧
      (1 ≤ "/index.html".toList.length ∧ ∀ c ∈ "/index.html".toList, isspace c = false)) ∧
    (scan_two "GET\r\n".toList).tokens.length < 2 ∧
    handle_request noFiles 7 "GET\r\n".toList =
      some (send_error 7 400 "Bad Request".toList) ∧
    (send_error 7 400 "Bad Request".toList = send_error 7 400 "Bad Request".toList ∧
      opened (send_error 7 400 "Bad Request".toList) = []) :=
  ⟨by decide,
   (parsed_fields_nonempty "GET /index.html HTTP/1.1\r\n\r\n".toList).1 _ _ (by decide),
   by decide, by decide,
   ((parsed_fields_nonempty "GET\r\n".toList).2 (by decide)).2 noFiles 7 _ (by decide)⟩

/-- C15. The code at the failing input: a `GET` request whose path, under
`/static/`, has 256 bytes.  Two tokens are matched, `GET` and the path, and
`sscanf` returns 2, so the parse succeeds; but the call writes the path and its
terminator, 257 bytes, into `path[256]`: no defined behaviour.  In a frame in
which `method[16]` lies directly after `path[256]` the terminator of the path
stands in the first cell of `method`, so after the successful parse the method
field is empty, and the router goes on with it: it prints the request and
answers 501. -/
theorem parsed_method_empty_after_long_path (fs : FileSystem) (client_socket : Int) :
    scan_two (get_request (long_static_path 'm')) =
        Scanned.two "GET".toList (long_static_path 'm') ∧
    (long_static_path 'm').length = 256 ∧
    sscanf_s_s (get_request (long_static_path 'm')) 16 256 = none ∧
    sscanf_adjacent (get_request (long_static_path 'm')) =
        some (Scanned.two [] (long_static_path 'm')) ∧
    handle_request_adjacent fs client_socket (get_request (long_static_path 'm')) =
      some (Event.printf ("Request:  ".toList ++ long_static_path 'm' ++ "\n".toList) ::
        send_error client_socket 501 "Not Implemented".toList) := by
  refine ⟨by decide!, by decide!, by decide!, by decide!, rfl⟩

/-! ### Release of the file handle -/

theorem held_append (before : List Int) (a b : List Event) :
    held before (a ++ b) = held (held before a) b := by
  induction a generalizing before with
  | nil => rfl
  | cons e es ih =>
    cases e with
    | open_ path ret =>
      simp only [List.cons_append, held]
      split <;> exact ih _
    | close fd => simpa [held] using ih _
    | _ => simpa [held] using ih _

theorem held_of_no_open_close (before : List Int) (trace : List Event)
    (ho : opened trace = []) (hc : closes trace = []) :
    held before trace = before := by
  induction trace generalizing before with
  | nil => rfl
  | cons e es ih =>
    cases e with
    | open_ path ret => simp [opened] at ho
    | close fd => simp [closes] at hc
    | lseek fd w ret => exact ih before (by simpa [opened] using ho) (by simpa [closes] using hc)
    | read fd count ret => exact ih before (by simpa [opened] using ho) (by simpa [closes] using hc)
    | send sock data => exact ih before (by simpa [opened] using ho) (by simpa [closes] using hc)
    | printf text => exact ih before (by simpa [opened] using ho) (by simpa [closes] using hc)
    | perror text => exact ih before (by simpa [opened] using ho) (by simpa [closes] using hc)

/-- C16. On every exit path of `send_file` the file handle is released.  For
all answers of the operating system, short reads and read errors included:
when `open` succeeds, the trace is that `open`, then calls that neither open
nor close anything, then one `close` of the descriptor as the last call, so
the descriptor is closed exactly once and none is held at the return; when
`open` fails, nothing is closed and no descriptor is held.  The file sender
used by the router is the instance at the answers of the machine state. -/
theorem send_file_releases_handle (os : FileCalls) (client_socket : Int)
    (filepath : List Char) :
    (0 ≤ os.fd →
      (∃ mid, send_file_on os client_socket filepath =
          Event.open_ filepath os.fd :: (mid ++ [Event.close os.fd]) ∧
        opened mid = [] ∧ closes mid = []) ∧
      opened (send_file_on os client_socket filepath) = [filepath] ∧
      closes (send_file_on os client_socket filepath) = [os.fd] ∧
      held [] (send_file_on os client_socket filepath) = []) ∧
    (os.fd < 0 →
      send_file_on os client_socket filepath =
        Event.open_ filepath os.fd :: send_error client_socket 404 "Not Found".toList ∧
      closes (send_file_on os client_socket filepath) = [] ∧
      held [] (send_file_on os client_socket filepath) = []) ∧
    (∀ fs : FileSystem, send_file fs client_socket filepath =
      send_file_on (file_calls fs filepath) client_socket filepath) := by
  refine ⟨?_, ?_, fun fs => send_file_eq_send_file_on fs client_socket filepath⟩
  · intro hfd
    have hshape : ∃ mid, send_file_on os client_socket filepath =
          Event.open_ filepath os.fd :: (mid ++ [Event.close os.fd]) ∧
        opened mid = [] ∧ closes mid = [] := by
      unfold send_file_on
      simp only [not_lt.2 hfd, if_false]
      refine ⟨_ :: _ :: _ :: read_loop_on client_socket os.fd os.reads, rfl, ?_, ?_⟩
      · simp [opened, opened_read_loop_on]
      · simp [closes, closes_read_loop_on]
    obtain ⟨mid, hmid, ho, hc⟩ := hshape
    refine ⟨⟨mid, hmid, ho, hc⟩, ?_, ?_, ?_⟩
    · rw [hmid]
      simp [opened, opened_append, ho]
    · rw [hmid]
      simp [closes, closes_append, hc]
    · rw [hmid]
      simp only [held, hfd, if_true]
      rw [held_append, held_of_no_open_close _ mid ho hc]
      simp [held]
  · intro hfd
    have hshape : send_file_on os client_socket filepath =
        Event.open_ filepath os.fd :: send_error client_socket 404 "Not Found".toList := by
      unfold send_file_on
      simp only [hfd, if_true]
    refine ⟨hshape, ?_, ?_⟩
    · rw [hshape]
      simp [closes, closes_send_error]
    · rw [hshape]
      rw [held, if_neg (not_le.2 hfd)]
      exact held_of_no_open_close _ _ (opened_send_error _ _ _) (closes_send_error _ _ _)

theorem send_file_releases_handle_witness :
    (0 : Int) ≤ 3 ∧
    closes (send_file_on ⟨3, 10, 0, [ReadOutcome.data "hello".toList, ReadOutcome.error]⟩ 7
      "./static/a.txt".toList) = [3] ∧
    held [] (send_file_on ⟨3, 10, 0, [ReadOutcome.data "hello".toList, ReadOutcome.error]⟩ 7
      "./static/a.txt".toList) = [] ∧
    (-1 : Int) < 0 ∧
    held [] (send_file_on ⟨-1, 0, 0, []⟩ 7 "./static/a.txt".toList) = [] :=
  ⟨by decide,
   ((send_file_releases_handle ⟨3, 10, 0, [ReadOutcome.data "hello".toList, ReadOutcome.error]⟩
      7 "./static/a.txt".toList).1 (by decide)).2.2.1,
   ((send_file_releases_handle ⟨3, 10, 0, [ReadOutcome.data "hello".toList, ReadOutcome.error]⟩
      7 "./static/a.txt".toList).1 (by decide)).2.2.2,
   by decide,
   ((send_file_releases_handle ⟨-1, 0, 0, []⟩ 7 "./static/a.txt".toList).2.1 (by decide)).2.2⟩

/-- The trace of `send_file` when the second read fails: the bytes of the
first read are sent, streaming stops, and the descriptor is closed. -/
theorem send_file_on_read_error_trace :
    send_file_on ⟨3, 10, 0, [ReadOutcome.data "hello".toList, ReadOutcome.error]⟩ 7
      "./static/a.txt".toList =
      [Event.open_ "./static/a.txt".toList 3,
       Event.lseek 3 Whence.SEEK_END 10,
       Event.lseek 3 Whence.SEEK_SET 0,
       Event.send 7 ("HTTP/1.1 200 OK\r\nContent-Type: text/plain\r\n" ++
         "Content-Length: 10\r\nConnection: close\r\n\r\n").toList,
       Event.read 3 4096 5,
       Event.send 7 "hello".toList,
       Event.read 3 4096 (-1),
       Event.close 3] := by
  decide!

/-! ### The content type of a static file -/

theorem strrchr_cons_dot (s : List Char) :
    strrchr ('.' :: s) '.' =
      match strrchr s '.' with
      | some t => some t
      | none => some ('.' :: s) := by
  rw [strrchr]
  cases strrchr s '.' <;> simp

/-- The equation of C17 needs the leading `/`: without it the prepended `.`
can become the extension. -/
theorem get_mime_type_dot_html :
    get_mime_type (".".toList ++ "html".toList) = "text/html".toList ∧
    get_mime_type "html".toList = "text/plain".toList := by
  decide

/-- C17. For every request path that begins with `/`, `get_mime_type` gives
the same content type for the path with `.` prepended as for the path itself;
so the `Content-Type` header of a static-file response is the MIME type of the
requested path. -/
theorem get_mime_type_dot_path (path : List Char) (hslash : "/".toList <+: path) :
    get_mime_type (".".toList ++ path) = get_mime_type path ∧
    ∀ (fs : FileSystem) (client_socket : Int) (request content : List Char),
      scan_two request = Scanned.two "GET".toList path →
      "/static/".toList <+: path → path.length ≤ 255 →
      fs.files (".".toList ++ path) = some content → content.length < 2 ^ 63 →
      ∃ trace r, handle_request fs client_socket request = some trace ∧
        parseResponse (sent client_socket trace) = some r ∧
        "Content-Type: ".toList ++ get_mime_type path ∈ r.headers := by
  have heq : get_mime_type (".".toList ++ path) = get_mime_type path := by
    obtain ⟨rest, hrest⟩ := hslash
    have hp : path = '/' :: rest := hrest.symm
    subst hp
    have e : ".".toList ++ '/' :: rest = '.' :: '/' :: rest := rfl
    rw [e]
    unfold get_mime_type
    rw [strrchr_cons_dot]
    cases strrchr ('/' :: rest) '.' with
    | some t => rfl
    | none => simp [strcmp_eq_zero_iff]
  refine ⟨heq, ?_⟩
  intro fs client_socket request content hs hpre hlen hopen _
  obtain ⟨trace, htrace, _, hparse⟩ := static_file_response_in_bounds fs client_socket
    request path content hs hpre hlen hopen
  refine ⟨trace, _, htrace, hparse, ?_⟩
  rw [heq]
  exact List.mem_cons_self _ _

theorem get_mime_type_dot_path_witness :
    "/".toList <+: "/static/site/index.html".toList ∧
    get_mime_type (".".toList ++ "/static/site/index.html".toList) =
      get_mime_type "/static/site/index.html".toList ∧
    get_mime_type "/static/site/index.html".toList = "text/html".toList :=
  ⟨by decide, (get_mime_type_dot_path _ (by decide)).1, by decide⟩

/-! ### The status line -/

theorem splitHead_sound (bytes head body : List Char)
    (h : splitHead bytes = some (head, body)) :
    bytes = head ++ "\r\n\r\n".toList ++ body := by
  induction bytes generalizing head with
  | nil => simp [splitHead] at h
  | cons c rest ih =>
    rw [splitHead] at h
    by_cases h4 : (c :: rest).take 4 = "\r\n\r\n".toList
    · rw [if_pos h4, Option.some.injEq, Prod.mk.injEq] at h
      rw [← h.1, ← h.2, List.nil_append, ← h4]
      have : rest.drop 3 = (c :: rest).drop 4 := rfl
      rw [this, List.take_append_drop]
    · rw [if_neg h4] at h
      cases hs : splitHead rest with
      | none => rw [hs] at h; cases h
      | some hb =>
        obtain ⟨h1, b1⟩ := hb
        rw [hs] at h
        simp only [Option.some.injEq, Prod.mk.injEq] at h
        obtain ⟨hh, hb⟩ := h
        subst hb
        rw [← hh, ih h1 hs]
        simp

theorem splitLinesAux_sound (cur text line : List Char) (lines : List (List Char))
    (h : splitLinesAux cur text = line :: lines) :
    ∃ rest, cur.reverse ++ text = line ++ rest ∧ (rest = [] ∨ "\r\n".toList <+: rest) := by
  induction cur, text using splitLinesAux.induct generalizing line lines with
  | case1 cur =>
    rw [splitLinesAux, List.cons.injEq] at h
    exact ⟨[], by rw [h.1], Or.inl rfl⟩
  | case2 cur rest ih =>
    rw [splitLinesAux, List.cons.injEq] at h
    exact ⟨'\r' :: '\n' :: rest, by rw [h.1], Or.inr ⟨rest, rfl⟩⟩
  | case3 cur c rest hne ih =>
    rw [splitLinesAux] at h
    · obtain ⟨r, hr, hcond⟩ := ih line lines h
      refine ⟨r, ?_, hcond⟩
      rw [← hr]
      simp
    · exact hne

/-- The status line that `parseResponse` reads is what the bytes begin with,
and a CRLF follows it. -/
theorem parseResponse_status_line (bytes : List Char) (r : Response)
    (h : parseResponse bytes = some r) :
    r.statusLine ++ "\r\n".toList <+: bytes := by
  unfold parseResponse at h
  cases hs : splitHead bytes with
  | none => rw [hs] at h; cases h
  | some hb =>
    obtain ⟨head, body⟩ := hb
    rw [hs] at h
    simp only at h
    cases hl : splitLinesAux [] head with
    | nil => rw [hl] at h; cases h
    | cons line lines =>
      rw [hl] at h
      simp only [Option.some.injEq] at h
      obtain ⟨rest, hrest, hcond⟩ := splitLinesAux_sound [] head line lines hl
      have hbytes := splitHead_sound bytes head body hs
      have hhead : head = line ++ rest := by simpa using hrest
      have hline : r.statusLine = line := by rw [← h]
      rw [hline, hbytes, hhead]
      rcases hcond with h0 | ⟨t, ht⟩
      · subst h0
        exact ⟨"\r\n".toList ++ body, by simp⟩
      · exact ⟨t ++ "\r\n\r\n".toList ++ body, by rw [← ht]; simp⟩

/-- Whenever `handle_request` has defined behaviour (the tokens fit
`method[16]` and `path[256]`), the bytes sent begin with one of the four
status lines and a CRLF, and the status line is `HTTP/1.1 200 OK` exactly when
the method is `GET` and the path is `/`, `/about`, `/api/status`, or begins
with `/static/` and names a file that opens. -/
theorem status_line_in_bounds (fs : FileSystem) (client_socket : Int)
    (request : List Char) (trace : List Event)
    (h : handle_request fs client_socket request = some trace) :
    ∃ r, parseResponse (sent client_socket trace) = some r ∧
      r.statusLine ++ "\r\n".toList <+: sent client_socket trace ∧
      (r.statusLine = "HTTP/1.1 200 OK".toList ∨
       r.statusLine = "HTTP/1.1 400 Bad Request".toList ∨
       r.statusLine = "HTTP/1.1 404 Not Found".toList ∨
       r.statusLine = "HTTP/1.1 501 Not Implemented".toList) ∧
      (r.statusLine = "HTTP/1.1 200 OK".toList ↔
        ∃ path, scan_two request = Scanned.two "GET".toList path ∧
          (path = "/".toList ∨ path = "/about".toList ∨ path = "/api/status".toList ∨
           ("/static/".toList <+: path ∧
              ∃ content, fs.files (".".toList ++ path) = some content))) := by
  obtain ⟨r, hr, hcases⟩ := response_cases_in_bounds fs client_socket request trace h
  refine ⟨r, hr, parseResponse_status_line _ r hr, ?_⟩
  rcases hcases with ⟨hc, rfl⟩ | ⟨m, p, hs, hm, rfl⟩ | ⟨p, hs, hroute⟩
  · rw [error_response_400]
    refine ⟨Or.inr (Or.inl rfl), ⟨fun h0 => absurd h0 (by decide), ?_⟩⟩
    rintro ⟨p, hs, _⟩
    rw [hs] at hc
    simp [Scanned.tokens] at hc
  · rw [error_response_501]
    refine ⟨Or.inr (Or.inr (Or.inr rfl)), ⟨fun h0 => absurd h0 (by decide), ?_⟩⟩
    rintro ⟨p2, hs2, _⟩
    rw [hs] at hs2
    exact absurd (Scanned.two.inj hs2).1 hm
  · rcases hroute with ⟨hp, hpr⟩ | ⟨hp, hpr⟩ | ⟨hp, hpr⟩ | ⟨hpre, c, hf, rfl⟩ |
      ⟨hpre, hf, rfl⟩ | ⟨h1, h2, h3, hpre, rfl⟩
    · rw [parse_index_response, Option.some.injEq] at hpr
      subst hpr
      exact ⟨Or.inl rfl, fun _ => ⟨p, hs, Or.inl hp⟩, fun _ => rfl⟩
    · rw [parse_about_response, Option.some.injEq] at hpr
      subst hpr
      exact ⟨Or.inl rfl, fun _ => ⟨p, hs, Or.inr (Or.inl hp)⟩, fun _ => rfl⟩
    · rw [parse_status_response, Option.some.injEq] at hpr
      subst hpr
      exact ⟨Or.inl rfl, fun _ => ⟨p, hs, Or.inr (Or.inr (Or.inl hp))⟩, fun _ => rfl⟩
    · exact ⟨Or.inl rfl,
        fun _ => ⟨p, hs, Or.inr (Or.inr (Or.inr ⟨hpre, c, hf⟩))⟩, fun _ => rfl⟩
    · rw [error_response_404]
      refine ⟨Or.inr (Or.inr (Or.inl rfl)), ⟨fun h0 => absurd h0 (by decide), ?_⟩⟩
      rintro ⟨p2, hs2, hp2⟩
      rw [hs] at hs2
      have hpp : p = p2 := (Scanned.two.inj hs2).2
      subst hpp
      obtain ⟨n1, n2, n3⟩ := static_route_ne hpre
      rcases hp2 with h0 | h0 | h0 | ⟨_, c, hc⟩
      · exact (n1 h0).elim
      · exact (n2 h0).elim
      · exact (n3 h0).elim
      · rw [hf] at hc
        cases hc
    · rw [error_response_404]
      refine ⟨Or.inr (Or.inr (Or.inl rfl)), ⟨fun h0 => absurd h0 (by decide), ?_⟩⟩
      rintro ⟨p2, hs2, hp2⟩
      rw [hs] at hs2
      have hpp : p = p2 := (Scanned.two.inj hs2).2
      subst hpp
      rcases hp2 with h0 | h0 | h0 | ⟨h0, _⟩
      · exact (h1 h0).elim
      · exact (h2 h0).elim
      · exact (h3 h0).elim
      · exact (hpre h0).elim

/-- C18. The code at the failing input: a `GET` request whose path begins with
`/static/`, has 600 bytes and names a file that opens.  The specification
gives a response that begins with the status line `HTTP/1.1 200 OK`; `sscanf`
writes 601 bytes into `path[256]`, so `handle_request` has no defined
behaviour and there is no response and no status line.  (The name built in
`filepath[512]` would moreover be cut to 511 bytes, which name no file.) -/
theorem status_line_long_path_overrun (client_socket : Int) :
    scan_two (get_request (deep_static_path 'd' 'e' 'f')) =
        Scanned.two "GET".toList (deep_static_path 'd' 'e' 'f') ∧
    "/static/".toList <+: deep_static_path 'd' 'e' 'f' ∧
    (oneFile (".".toList ++ deep_static_path 'd' 'e' 'f') "page".toList).files
        (".".toList ++ deep_static_path 'd' 'e' 'f') = some "page".toList ∧
    handle_request (oneFile (".".toList ++ deep_static_path 'd' 'e' 'f') "page".toList)
        client_socket (get_request (deep_static_path 'd' 'e' 'f')) = none ∧
    response_of (oneFile (".".toList ++ deep_static_path 'd' 'e' 'f') "page".toList)
        client_socket (get_request (deep_static_path 'd' 'e' 'f')) = none ∧
    (oneFile (".".toList ++ deep_static_path 'd' 'e' 'f') "page".toList).files
        (snprintf 512 (".".toList ++ deep_static_path 'd' 'e' 'f')) = none := by
  refine ⟨by decide!, by decide!, by decide!, ?_, ?_, by decide!⟩ <;> rfl

end HTTPServer
